import Mathlib

/-!
# CyberRange-Scanner: verification of the nmap output parser and its store

Shallow embedding of `parse_and_store_nmap` (and the progress extraction of
`ScanThread.run`) from `cyberrange_scanner.py`, together with proofs of the
spec's claims about them.

The durable store (sqlite tables `devices` and `vulnerabilities`) is modelled
as lists of rows in rowid order; `INSERT` appends, `UPDATE ... WHERE` edits in
place.  Python regular-expression searches used by the parser are modelled by
explicit leftmost-match scanning functions.
-/

namespace CyberRange

/-! ## Python string primitives

All string manipulation is implemented by structural recursion over the
character list of the string, so that every definition evaluates inside the
kernel. -/

/-- Trim whitespace from both ends of a character list. -/
def trimList (cs : List Char) : List Char :=
  (((cs.dropWhile (fun c => c.isWhitespace)).reverse.dropWhile
    (fun c => c.isWhitespace)).reverse)

/-- Python `str.strip()` (no argument): trim surrounding whitespace. -/
def pyStrip (s : String) : String := String.mk (trimList s.data)

/-- Maximal non-whitespace runs of a character list (`acc` holds the current
run, reversed). -/
def wsTokens : List Char → List Char → List (List Char)
  | [], acc => if acc.isEmpty then [] else [acc.reverse]
  | c :: cs, acc =>
      if c.isWhitespace then
        if acc.isEmpty then wsTokens cs [] else acc.reverse :: wsTokens cs []
      else wsTokens cs (c :: acc)

/-- Python `str.split()` (no argument): split on whitespace runs, no empties. -/
def pySplit (s : String) : List String :=
  (wsTokens s.data []).map String.mk

/-- Split a character list at every occurrence of a separator character. -/
def splitOnChar (sep : Char) : List Char → List (List Char)
  | [] => [[]]
  | c :: cs =>
      if c = sep then [] :: splitOnChar sep cs
      else
        match splitOnChar sep cs with
        | [] => [[c]]
        | t :: ts => (c :: t) :: ts

/-- Python `str.split(sep)` for a one-character separator. -/
def pySplitChar (sep : Char) (s : String) : List String :=
  (splitOnChar sep s.data).map String.mk

/-- Lower-case a string (ASCII, as `str.lower` on the inputs at hand). -/
def strLower (s : String) : String := String.mk (s.data.map Char.toLower)

/-- Boolean prefix test on character lists. -/
def leadsList : List Char → List Char → Bool
  | [], _ => true
  | _ :: _, [] => false
  | p :: ps, c :: cs => p = c && leadsList ps cs

/-- Python `s.startswith(pre)`. -/
def strStarts (s pre : String) : Bool := leadsList pre.data s.data

/-- Boolean contiguous-sublist test on character lists. -/
def infixList (needle : List Char) : List Char → Bool
  | [] => needle.isEmpty
  | c :: cs => leadsList needle (c :: cs) || infixList needle cs

/-- Python `needle in hay` substring test. -/
def strContains (hay needle : String) : Bool :=
  infixList needle.toList hay.toList

/-- Python `s.strip('()')`: remove leading and trailing parenthesis characters. -/
def stripParens (s : String) : String :=
  let isParen : Char → Bool := fun c => c = '(' || c = ')'
  String.mk (((s.toList.dropWhile isParen).reverse.dropWhile isParen).reverse)

/-- Value of a list of decimal digit characters. -/
def digitsVal (cs : List Char) : Nat :=
  cs.foldl (fun acc c => acc * 10 + (c.toNat - 48)) 0

/-- Helper for `pyInt?`: digits possibly separated by single underscores. -/
def pyIntDigits : List Char → Nat → Option Nat
  | [], acc => some acc
  | '_' :: c :: cs, acc =>
      if c.isDigit then pyIntDigits cs (acc * 10 + (c.toNat - 48)) else none
  | ['_'], _ => none
  | c :: cs, acc =>
      if c.isDigit then pyIntDigits cs (acc * 10 + (c.toNat - 48)) else none

/-- Python `int(s)` on a string: optional sign, then decimal digits (single
underscores allowed between digits); `none` models `ValueError`. -/
def pyInt? (s : String) : Option Int :=
  let cs := trimList s.data
  let signed : Int × List Char :=
    match cs with
    | '+' :: r => (1, r)
    | '-' :: r => (-1, r)
    | r => (1, r)
  match signed.2 with
  | [] => none
  | c :: cs' =>
      if c.isDigit then
        (pyIntDigits cs' (c.toNat - 48)).map (fun n => signed.1 * (n : Int))
      else none

/-- Strip `pre` from the front of `l`, or fail. -/
def dropLead : List Char → List Char → Option (List Char)
  | [], l => some l
  | _ :: _, [] => none
  | p :: ps, c :: cs => if p = c then dropLead ps cs else none

/-! ## Models of the parser's regular expressions -/

/-- Character class `[0-9A-Fa-f:]` of the MAC pattern. -/
def isMacChar (c : Char) : Bool :=
  c.isDigit || ('A' ≤ c && c ≤ 'F') || ('a' ≤ c && c ≤ 'f') || c = ':'

/-- The optional `(?:\s+\((.*?)\))?` vendor group after the MAC digits:
a nonempty whitespace run, then `(`, then the (lazy) text up to the first `)`.
`none` when the optional group does not match (group 2 is then `None`). -/
def macVendor? (cs : List Char) : Option String :=
  let ws := cs.takeWhile (fun c => c.isWhitespace)
  let rest := cs.dropWhile (fun c => c.isWhitespace)
  if ws.isEmpty then none
  else
    match rest with
    | '(' :: r => if r.any (fun c => c = ')') then some (String.mk (r.takeWhile (fun c => c ≠ ')'))) else none
    | _ => none

/-- Attempt the MAC pattern anchored at the head of `cs`. -/
def macAt (cs : List Char) : Option (String × Option String) :=
  match dropLead "MAC Address: ".toList cs with
  | none => none
  | some rest =>
      let mac := rest.take 17
      if mac.length = 17 && mac.all isMacChar then
        some (String.mk mac, macVendor? (rest.drop 17))
      else none

/-- `re.search` of `MAC Address: ([0-9A-Fa-f:]{17})(?:\s+\((.*?)\))?`:
leftmost match, returning (group 1, group 2). -/
def macScan : List Char → Option (String × Option String)
  | [] => none
  | c :: cs => macAt (c :: cs) <|> macScan cs

/-- `re.search` of `Running: (.*?)$|OS details: (.*?)$` with `re.IGNORECASE`:
leftmost match, alternative 1 preferred at equal positions; returns the pair
(group 1, group 2), the matched alternative's group holding the rest of the
line (in original case). -/
def osScan : List Char → Option (Option String × Option String)
  | [] => none
  | c :: cs =>
      let l := c :: cs
      if (l.take 9).map Char.toLower = "running: ".toList then
        some (some (String.mk (l.drop 9)), none)
      else if (l.take 12).map Char.toLower = "os details: ".toList then
        some (none, some (String.mk (l.drop 12)))
      else osScan cs

/-- Python truthiness of an optional string (`None` and `""` are falsy). -/
def pyTruthy : Option String → Bool
  | none => false
  | some s => s ≠ ""

/-- The effect of `if os_match.group(1): ... elif os_match.group(2): ...`
on `current_os`. -/
def osUpdate (g1 g2 : Option String) (cur : Option String) : Option String :=
  if pyTruthy g1 then g1 else if pyTruthy g2 then g2 else cur

/-- `re.search` of `(\d+)/tcp`: leftmost match, returning the digit group. -/
def portTcpScan : List Char → Option (List Char)
  | [] => none
  | c :: cs =>
      (if c.isDigit then
        let rest := (c :: cs).dropWhile (fun d => d.isDigit)
        if leadsList "/tcp".toList rest then
          some ((c :: cs).takeWhile (fun d => d.isDigit))
        else none
      else none) <|> portTcpScan cs

/-- `re.search` of `(\d+)/tcp\s+(\S+)`: leftmost match, returning group 2. -/
def serviceTcpScan : List Char → Option String
  | [] => none
  | c :: cs =>
      (if c.isDigit then
        let rest := (c :: cs).dropWhile (fun d => d.isDigit)
        match dropLead "/tcp".toList rest with
        | some r =>
            let ws := r.takeWhile (fun d => d.isWhitespace)
            let tok := (r.dropWhile (fun d => d.isWhitespace)).takeWhile (fun d => !d.isWhitespace)
            if !ws.isEmpty && !tok.isEmpty then some (String.mk tok) else none
        | none => none
      else none) <|> serviceTcpScan cs

/-! ## Data model: the two tables touched by the parser -/

/-- A row of the `devices` table (rowid order; `ip TEXT UNIQUE`). -/
structure Device where
  ip : String
  mac : Option String
  vendor : Option String
  os : Option String
  status : Option String
  lastSeen : Option String
deriving DecidableEq, Repr

/-- A row of the `vulnerabilities` table (rowid order; no unique constraint,
the surrogate id is the list position). -/
structure Vuln where
  deviceIp : String
  port : Int
  service : String
  scriptOutput : String
  severity : String
  timestamp : String
deriving DecidableEq, Repr

/-- The durable store: the two tables written by `parse_and_store_nmap`. -/
structure Store where
  devices : List Device
  vulns : List Vuln
deriving DecidableEq, Repr

/-- `INSERT OR IGNORE INTO devices (ip) VALUES (?)`: append an ip-only row
unless a row with that ip exists (`ip TEXT UNIQUE`). -/
def devInsert (ip : String) (ds : List Device) : List Device :=
  if ds.any (fun d => d.ip = ip) then ds
  else ds ++ [⟨ip, none, none, none, none, none⟩]

/-- `UPDATE devices SET status = 'up', last_seen = ?, mac = ?, vendor = ?,
os = ? WHERE ip = ?`. -/
def devUpdate (ts ip : String) (mac vendor os : Option String)
    (ds : List Device) : List Device :=
  ds.map (fun d =>
    if d.ip = ip then
      { d with status := some "up", lastSeen := some ts,
               mac := mac, vendor := vendor, os := os }
    else d)

/-- The device-flush pair of statements executed for a finished host. -/
def flushDevice (ts ip : String) (mac vendor os : Option String)
    (ds : List Device) : List Device :=
  devUpdate ts ip mac vendor os (devInsert ip ds)

/-- The natural key test `device_ip = ? AND port = ? AND service = ?`. -/
def vulnKeyIs (ip : String) (port : Int) (service : String) (v : Vuln) : Bool :=
  v.deviceIp = ip && v.port = port && v.service = service

/-- Whether a row with the given natural key exists (a `SELECT id` fetch). -/
def hasVKey (ip : String) (port : Int) (service : String) (vs : List Vuln) : Bool :=
  vs.any (vulnKeyIs ip port service)

/-- Whether a `devices` row with the given ip exists. -/
def hasIp (ip : String) (ds : List Device) : Bool :=
  ds.any (fun d => d.ip = ip)

/-- Number of `devices` rows with the given ip. -/
def devCount (ip : String) (ds : List Device) : Nat :=
  (ds.filter (fun d => d.ip = ip)).length

/-- The informational open-port write: `SELECT id FROM vulnerabilities WHERE
device_ip = ? AND port = ? AND service = ?`; insert only when absent. -/
def storeOpenPort (ts ip : String) (port : Int) (service : String)
    (vs : List Vuln) : List Vuln :=
  if hasVKey ip port service vs then vs
  else vs ++ [⟨ip, port, service, "Open port detected", "Informational", ts⟩]

/-- The script-evidence write: fetch the first row with the natural key and
`UPDATE ... WHERE id = ?` it to High severity with the new evidence, else
`INSERT` a new High row. -/
def storeScriptVuln (ts ip : String) (port : Int) (service evidence : String) :
    List Vuln → List Vuln
  | [] => [⟨ip, port, service, evidence, "High", ts⟩]
  | v :: vs =>
      if vulnKeyIs ip port service v then
        { v with scriptOutput := evidence, severity := "High", timestamp := ts } :: vs
      else v :: storeScriptVuln ts ip port service evidence vs

/-! ## The parser state machine -/

/-- The loop-carried parser variables of `parse_and_store_nmap`. -/
structure Cursor where
  currentIp : Option String
  currentMac : Option String
  currentVendor : Option String
  currentOs : Option String
  parsingPortsSection : Bool
  parsingHostScriptResults : Bool
deriving DecidableEq, Repr

/-- The cursor at the top of `parse_and_store_nmap`. -/
def Cursor.init : Cursor := ⟨none, none, none, none, false, false⟩

/-- Parser state: cursor plus the store seen through the open connection. -/
structure PState where
  cursor : Cursor
  store : Store
deriving DecidableEq, Repr

/-- `current_ip = line.split()[-1].strip('()')`. -/
def headerIp (line : String) : String :=
  stripParens ((pySplit line).getLastD "")

/-- Body of `if parsing_ports_section and current_ip:` — the ports-section
rule for one content line. -/
def portsLine (ts ip line : String) (vs : List Vuln) : List Vuln :=
  match pySplit line with
  | p0 :: p1 :: p2 :: _ =>
      if strContains p0 "/" && (p1 = "open" || p1 = "closed" || p1 = "filtered") then
        match pyInt? ((pySplitChar '/' p0).headD "") with
        | some portNum => if p1 = "open" then storeOpenPort ts ip portNum p2 vs else vs
        | none => vs
      else vs
  | _ => vs

/-- The vulnerability heuristic for a script-output line. -/
def isVulnerable (s : String) : Bool :=
  let l := strLower s
  (strContains l "vulnerable" || strContains l "vulnerability") &&
  (!strContains l "false" && !strContains l "could not negotiate" &&
   !strContains l "error")

/-- `script_port`: from the first `(\d+)/tcp` match, default 0. -/
def scriptPort (s : String) : Int :=
  match portTcpScan s.toList with
  | some ds => (digitsVal ds : Int)
  | none => 0

/-- `script_service`: group 2 of `(\d+)/tcp\s+(\S+)` when present, else the
script-family heuristic, else the host-level sentinel. -/
def scriptService (s : String) : String :=
  match serviceTcpScan s.toList with
  | some svc => svc
  | none =>
      if strContains s "smb-vuln" then "smb"
      else if strContains s "http-vuln" then "http"
      else "host_level_service"

/-- Body of `if parsing_host_script_results and current_ip:` — the
host-script-section rule for one content line. -/
def scriptLine (ts ip line : String) (vs : List Vuln) : List Vuln :=
  if strStarts line "|_" || strStarts line "| " then
    let scriptOutput := pyStrip line
    if isVulnerable scriptOutput then
      storeScriptVuln ts ip (scriptPort scriptOutput) (scriptService scriptOutput)
        scriptOutput vs
    else vs
  else vs

/-- One iteration of the line loop of `parse_and_store_nmap`. -/
def step (ts : String) (st : PState) (rawLine : String) : PState :=
  let line := pyStrip rawLine
  if line = "" then st
  else if strContains line "Nmap scan report for" then
    let store' :=
      match st.cursor.currentIp with
      | some ip =>
          if ip = "" then st.store
          else
            { st.store with
              devices := flushDevice ts ip st.cursor.currentMac
                st.cursor.currentVendor st.cursor.currentOs st.store.devices }
      | none => st.store
    { cursor := ⟨some (headerIp line), none, none, none, false, false⟩,
      store := store' }
  else
    match macScan line.toList with
    | some (mac, vendor) =>
        { st with cursor := { st.cursor with currentMac := some mac, currentVendor := vendor } }
    | none =>
      match osScan line.toList with
      | some (g1, g2) =>
          { st with cursor := { st.cursor with currentOs := osUpdate g1 g2 st.cursor.currentOs } }
      | none =>
        if strStarts line "PORT      STATE SERVICE" then
          { st with cursor := { st.cursor with parsingPortsSection := true, parsingHostScriptResults := false } }
        else if strStarts line "Host script results:" then
          { st with cursor := { st.cursor with parsingHostScriptResults := true, parsingPortsSection := false } }
        else if strStarts line "Discovered open port" || strStarts line "Initiating " || strStarts line "Completed " then
          st
        else if st.cursor.parsingPortsSection && pyTruthy st.cursor.currentIp then
          match st.cursor.currentIp with
          | some ip => { st with store := { st.store with vulns := portsLine ts ip line st.store.vulns } }
          | none => st
        else if st.cursor.parsingHostScriptResults && pyTruthy st.cursor.currentIp then
          match st.cursor.currentIp with
          | some ip => { st with store := { st.store with vulns := scriptLine ts ip line st.store.vulns } }
          | none => st
        else st

/-- The unconditional end-of-stream flush after the loop. -/
def endFlush (ts : String) (st : PState) : Store :=
  match st.cursor.currentIp with
  | some ip =>
      if ip = "" then st.store
      else
        { st.store with
          devices := flushDevice ts ip st.cursor.currentMac
            st.cursor.currentVendor st.cursor.currentOs st.store.devices }
  | none => st.store

/-- `parse_and_store_nmap` on an already-split list of lines. -/
def parseLines (ts : String) (lines : List String) (store : Store) : Store :=
  endFlush ts (lines.foldl (step ts) ⟨Cursor.init, store⟩)

/-- `parse_and_store_nmap(nmap_output)`: split into lines and run the loop;
`ts` is the `datetime.now().isoformat()` taken at entry. -/
def parse_and_store_nmap (ts nmapOutput : String) (store : Store) : Store :=
  parseLines ts (pySplitChar '\n' nmapOutput) store

/-! ## Progress extraction in `ScanThread.run`

`if '% done' in line: try: percent = int(float(line.split('%')[0].split()[-1]));
emit(percent); except (ValueError, IndexError): pass`. -/

/-- `int(float(tok))` for a plain decimal literal: optional sign, integer
digits, optional fraction; truncation toward zero keeps the signed integer
part.  Tokens outside this grammar model a `ValueError` (`none`). -/
def pyFloatTrunc? (s : String) : Option Int :=
  let signed : Int × List Char :=
    match s.toList with
    | '+' :: r => (1, r)
    | '-' :: r => (-1, r)
    | r => (1, r)
  let ip := signed.2.takeWhile (fun c => c.isDigit)
  match signed.2.dropWhile (fun c => c.isDigit) with
  | [] => if ip.isEmpty then none else some (signed.1 * (digitsVal ip : Int))
  | '.' :: fr =>
      if fr.all (fun c => c.isDigit) && !(ip.isEmpty && fr.isEmpty) then
        some (signed.1 * (digitsVal ip : Int))
      else none
  | _ => none

/-- The progress percentage emitted for one output line, if any: guarded by
the `'% done'` substring, the last whitespace token before the first `%` is
parsed; every extraction failure is swallowed (`none`). -/
def progressOf (line : String) : Option Int :=
  if strContains line "% done" then
    match (pySplit ((pySplitChar '%' line).headD "")).getLast? with
    | some tok => pyFloatTrunc? tok
    | none => none
  else none

/-- The sequence of `scan_percent` signals emitted by the reader loop of
`ScanThread.run` over an output stream (lines containing the Qt
"Unknown property" warning are filtered out first). -/
def scanPercentEvents (lines : List String) : List Int :=
  (lines.filter (fun l => !(strContains l "Unknown property"))).filterMap progressOf

/-! ## The parser against a fallible storage layer

To reason about `sqlite3.Error` recovery, each executed write statement
(`INSERT`/`UPDATE`) is numbered in execution order and an oracle decides
whether it raises.  A raising write performs no change.  Writes inside a
`try/except sqlite3.Error` block are recovered (the rest of the block is
skipped and the loop continues); the informational open-port `INSERT` and the
end-of-stream flush are outside any such handler, so a failure there
propagates and aborts the rest of the call.  Commit granularity is not
modelled: a performed write is immediately visible. -/

/-- Which numbered write statements raise `sqlite3.Error`. -/
abbrev Oracle := Nat → Bool

/-- Parser state against the fallible store: cursor, store, and the number of
write statements executed so far. -/
structure FState where
  cursor : Cursor
  store : Store
  writes : Nat
deriving DecidableEq, Repr

/-- The guarded device-flush block (`try ... except sqlite3.Error`): a raise
in the `INSERT` skips the `UPDATE`; either raise is caught. -/
def flushDeviceF (fails : Oracle) (ts ip : String) (mac vendor os : Option String)
    (ds : List Device) (n : Nat) : List Device × Nat :=
  if fails n then (ds, n + 1)
  else
    let ds1 := devInsert ip ds
    if fails (n + 1) then (ds1, n + 2)
    else (devUpdate ts ip mac vendor os ds1, n + 2)

/-- The guarded script-evidence write (one `UPDATE` or `INSERT`). -/
def scriptVulnF (fails : Oracle) (ts ip : String) (port : Int)
    (service evidence : String) (vs : List Vuln) (n : Nat) : List Vuln × Nat :=
  if fails n then (vs, n + 1)
  else (storeScriptVuln ts ip port service evidence vs, n + 1)

/-- The informational open-port insert: its `except (ValueError, IndexError)`
does not catch `sqlite3.Error`, so a raise aborts the call. -/
def openPortF (fails : Oracle) (ts ip : String) (port : Int) (service : String)
    (vs : List Vuln) (n : Nat) : Except (List Vuln × Nat) (List Vuln × Nat) :=
  if hasVKey ip port service vs then
    .ok (vs, n)
  else if fails n then .error (vs, n + 1)
  else .ok (vs ++ [⟨ip, port, service, "Open port detected", "Informational", ts⟩], n + 1)

/-- The host-script branch against the fallible store. -/
def scriptLineF (fails : Oracle) (ts ip line : String) (vs : List Vuln) (n : Nat) :
    List Vuln × Nat :=
  if strStarts line "|_" || strStarts line "| " then
    let scriptOutput := pyStrip line
    if isVulnerable scriptOutput then
      scriptVulnF fails ts ip (scriptPort scriptOutput) (scriptService scriptOutput)
        scriptOutput vs n
    else (vs, n)
  else (vs, n)

/-- The ports branch against the fallible store. -/
def portsLineF (fails : Oracle) (ts ip line : String) (vs : List Vuln) (n : Nat) :
    Except (List Vuln × Nat) (List Vuln × Nat) :=
  match pySplit line with
  | p0 :: p1 :: p2 :: _ =>
      if strContains p0 "/" && (p1 = "open" || p1 = "closed" || p1 = "filtered") then
        match pyInt? ((pySplitChar '/' p0).headD "") with
        | some portNum =>
            if p1 = "open" then openPortF fails ts ip portNum p2 vs n else .ok (vs, n)
        | none => .ok (vs, n)
      else .ok (vs, n)
  | _ => .ok (vs, n)

/-- One loop iteration against the fallible store; `.error` is an uncaught
`sqlite3.Error` escaping `parse_and_store_nmap`. -/
def stepF (fails : Oracle) (ts : String) (st : FState) (rawLine : String) :
    Except FState FState :=
  let line := pyStrip rawLine
  if line = "" then .ok st
  else if strContains line "Nmap scan report for" then
    let flushed : Store × Nat :=
      match st.cursor.currentIp with
      | some ip =>
          if ip = "" then (st.store, st.writes)
          else
            let r := flushDeviceF fails ts ip st.cursor.currentMac
              st.cursor.currentVendor st.cursor.currentOs st.store.devices st.writes
            ({ st.store with devices := r.1 }, r.2)
      | none => (st.store, st.writes)
    .ok { cursor := ⟨some (headerIp line), none, none, none, false, false⟩,
          store := flushed.1, writes := flushed.2 }
  else
    match macScan line.toList with
    | some (mac, vendor) =>
        .ok { st with cursor := { st.cursor with currentMac := some mac, currentVendor := vendor } }
    | none =>
      match osScan line.toList with
      | some (g1, g2) =>
          .ok { st with cursor := { st.cursor with currentOs := osUpdate g1 g2 st.cursor.currentOs } }
      | none =>
        if strStarts line "PORT      STATE SERVICE" then
          .ok { st with cursor := { st.cursor with parsingPortsSection := true, parsingHostScriptResults := false } }
        else if strStarts line "Host script results:" then
          .ok { st with cursor := { st.cursor with parsingHostScriptResults := true, parsingPortsSection := false } }
        else if strStarts line "Discovered open port" || strStarts line "Initiating " || strStarts line "Completed " then
          .ok st
        else if st.cursor.parsingPortsSection && pyTruthy st.cursor.currentIp then
          match st.cursor.currentIp with
          | some ip =>
              match portsLineF fails ts ip line st.store.vulns st.writes with
              | .ok r => .ok { st with store := { st.store with vulns := r.1 }, writes := r.2 }
              | .error r => .error { st with store := { st.store with vulns := r.1 }, writes := r.2 }
          | none => .ok st
        else if st.cursor.parsingHostScriptResults && pyTruthy st.cursor.currentIp then
          match st.cursor.currentIp with
          | some ip =>
              let r := scriptLineF fails ts ip line st.store.vulns st.writes
              .ok { st with store := { st.store with vulns := r.1 }, writes := r.2 }
          | none => .ok st
        else .ok st

/-- The unguarded end-of-stream flush against the fallible store. -/
def endFlushF (fails : Oracle) (ts : String) (st : FState) : Except Store Store :=
  match st.cursor.currentIp with
  | none => .ok st.store
  | some ip =>
      if ip = "" then .ok st.store
      else if fails st.writes then .error st.store
      else
        let ds1 := devInsert ip st.store.devices
        if fails (st.writes + 1) then .error { st.store with devices := ds1 }
        else .ok { st.store with
          devices := devUpdate ts ip st.cursor.currentMac st.cursor.currentVendor
            st.cursor.currentOs ds1 }

/-- `parse_and_store_nmap` against the fallible store: the store reached on
normal completion (`.ok`) or at the uncaught error (`.error`); lines after an
uncaught error are never processed. -/
def parseLinesF (fails : Oracle) (ts : String) (lines : List String)
    (store : Store) : Except Store Store :=
  match lines.foldl (fun acc l => Except.bind acc (fun st => stepF fails ts st l))
      (.ok ⟨Cursor.init, store, 0⟩) with
  | .error st => .error st.store
  | .ok st => endFlushF fails ts st

/-! ## Spec-side predicates (for comparison against the code)

These two follow the wording of the specification's host-script rule; the
claims' theorems relate them to the code's `isVulnerable` path. -/

/-- Spec wording: the line contains a vulnerability-indicating term
(`vulnerable` or `vulnerability`, case-insensitive). -/
def specVulnTerm (s : String) : Bool :=
  strContains (strLower s) "vulnerable" || strContains (strLower s) "vulnerability"

/-- Spec wording: the line contains one of the fixed negation terms
(`false`, `could not negotiate`, `error`, case-insensitive). -/
def specNegTerm (s : String) : Bool :=
  strContains (strLower s) "false" || strContains (strLower s) "could not negotiate" ||
  strContains (strLower s) "error"

/-! ## Store operations emitted by the parse, for the idempotence argument

The cursor evolution of the loop never reads the store, and every loop
iteration performs at most one store mutation, so a parse factors into a
cursor run plus a list of store operations.  `cursorStep`, `lineOps` and
`opsAux` replicate the branch structure of `step`; the factorisation is
proved, not assumed. -/

/-- A single store mutation performed by the parser. -/
inductive StoreOp where
  | dev (ip : String) (mac vendor os : Option String)
  | openPort (ip : String) (port : Int) (service : String)
  | scriptV (ip : String) (port : Int) (service evidence : String)
deriving DecidableEq, Repr

/-- Apply one store operation. -/
def applyOp (ts : String) (s : Store) : StoreOp → Store
  | .dev ip m v o => { s with devices := flushDevice ts ip m v o s.devices }
  | .openPort ip p sv => { s with vulns := storeOpenPort ts ip p sv s.vulns }
  | .scriptV ip p sv ev => { s with vulns := storeScriptVuln ts ip p sv ev s.vulns }

/-- Apply a list of store operations in order. -/
def applyOps (ts : String) (w : List StoreOp) (s : Store) : Store :=
  w.foldl (applyOp ts) s

/-- The cursor component of `step` (the store is never consulted). -/
def cursorStep (c : Cursor) (rawLine : String) : Cursor :=
  let line := pyStrip rawLine
  if line = "" then c
  else if strContains line "Nmap scan report for" then
    ⟨some (headerIp line), none, none, none, false, false⟩
  else
    match macScan line.toList with
    | some (mac, vendor) => { c with currentMac := some mac, currentVendor := vendor }
    | none =>
      match osScan line.toList with
      | some (g1, g2) => { c with currentOs := osUpdate g1 g2 c.currentOs }
      | none =>
        if strStarts line "PORT      STATE SERVICE" then
          { c with parsingPortsSection := true, parsingHostScriptResults := false }
        else if strStarts line "Host script results:" then
          { c with parsingHostScriptResults := true, parsingPortsSection := false }
        else c

/-- The store operation (if any) of a ports-section content line. -/
def portsLineOp (ip line : String) : List StoreOp :=
  match pySplit line with
  | p0 :: p1 :: p2 :: _ =>
      if strContains p0 "/" && (p1 = "open" || p1 = "closed" || p1 = "filtered") then
        match pyInt? ((pySplitChar '/' p0).headD "") with
        | some portNum => if p1 = "open" then [.openPort ip portNum p2] else []
        | none => []
      else []
  | _ => []

/-- The store operation (if any) of a host-script-section content line. -/
def scriptLineOp (ip line : String) : List StoreOp :=
  if strStarts line "|_" || strStarts line "| " then
    let scriptOutput := pyStrip line
    if isVulnerable scriptOutput then
      [.scriptV ip (scriptPort scriptOutput) (scriptService scriptOutput) scriptOutput]
    else []
  else []

/-- The store operations of one loop iteration. -/
def lineOps (c : Cursor) (rawLine : String) : List StoreOp :=
  let line := pyStrip rawLine
  if line = "" then []
  else if strContains line "Nmap scan report for" then
    match c.currentIp with
    | some ip => if ip = "" then [] else [.dev ip c.currentMac c.currentVendor c.currentOs]
    | none => []
  else
    match macScan line.toList with
    | some _ => []
    | none =>
      match osScan line.toList with
      | some _ => []
      | none =>
        if strStarts line "PORT      STATE SERVICE" then []
        else if strStarts line "Host script results:" then []
        else if strStarts line "Discovered open port" || strStarts line "Initiating " || strStarts line "Completed " then []
        else if c.parsingPortsSection && pyTruthy c.currentIp then
          match c.currentIp with
          | some ip => portsLineOp ip line
          | none => []
        else if c.parsingHostScriptResults && pyTruthy c.currentIp then
          match c.currentIp with
          | some ip => scriptLineOp ip line
          | none => []
        else []

/-- The store operations of the end-of-stream flush. -/
def endOps (c : Cursor) : List StoreOp :=
  match c.currentIp with
  | some ip => if ip = "" then [] else [.dev ip c.currentMac c.currentVendor c.currentOs]
  | none => []

/-- The full store-operation list of a parse started at cursor `c`. -/
def opsAux (c : Cursor) : List String → List StoreOp
  | [] => endOps c
  | l :: ls => lineOps c l ++ opsAux (cursorStep c l) ls

/-- Whether an operation is a device flush for `ip`. -/
def isDevFor (ip : String) : StoreOp → Bool
  | .dev ip' _ _ _ => ip' = ip
  | _ => false

/-- Whether an operation is a script write for the given natural key. -/
def isScriptFor (ip : String) (port : Int) (service : String) : StoreOp → Bool
  | .scriptV ip' p' sv' _ => ip' = ip && p' = port && sv' = service
  | _ => false

/-! ## Basic lemmas about the write operations -/

theorem isVulnerable_eq (s : String) :
    isVulnerable s = (specVulnTerm s && !specNegTerm s) := by
  simp only [isVulnerable, specVulnTerm, specNegTerm]
  cases strContains (strLower s) "vulnerable" <;>
    cases strContains (strLower s) "vulnerability" <;>
    cases strContains (strLower s) "false" <;>
    cases strContains (strLower s) "could not negotiate" <;>
    cases strContains (strLower s) "error" <;> rfl

/-- After a script write, a row with the natural key carries the new
evidence, High severity and the write's timestamp. -/
theorem storeScriptVuln_high (ts ip : String) (p : Int) (sv e : String)
    (vs : List Vuln) :
    (storeScriptVuln ts ip p sv e vs).any
      (fun v => vulnKeyIs ip p sv v && (v.scriptOutput = e && (v.severity = "High" && v.timestamp = ts))) = true := by
  induction vs with
  | nil => simp [storeScriptVuln, vulnKeyIs]
  | cons v vs ih =>
      by_cases h : vulnKeyIs ip p sv v = true
      · simp only [storeScriptVuln, h, if_true, List.any_cons]
        simp only [vulnKeyIs] at h ⊢
        simp_all
      · simp only [storeScriptVuln, h, Bool.not_eq_true] at *
        simp [storeScriptVuln, h, List.any_cons, ih]

/-! ## C7: the concrete full-scenario check -/

/-- C7: on the stream `Nmap scan report for 10.0.0.5` / `MAC Address:
AA:BB:CC:DD:EE:FF (Acme Corp)` / `PORT      STATE SERVICE` /
`80/tcp    open  http` / blank, the parse ends with the device row
(10.0.0.5, AA:BB:CC:DD:EE:FF, "Acme Corp", status "up") and exactly one
Informational vulnerability row (10.0.0.5, 80, http). -/
theorem c7_scenario (ts : String) :
    parseLines ts
      ["Nmap scan report for 10.0.0.5",
       "MAC Address: AA:BB:CC:DD:EE:FF (Acme Corp)",
       "PORT      STATE SERVICE",
       "80/tcp    open  http",
       ""] ⟨[], []⟩ =
    ⟨[⟨"10.0.0.5", some "AA:BB:CC:DD:EE:FF", some "Acme Corp", none, some "up", some ts⟩],
     [⟨"10.0.0.5", 80, "http", "Open port detected", "Informational", ts⟩]⟩ := by
  rfl

/-! ## C5: blank lines do NOT terminate a section -/

/-- C5 (refuting the claim): a blank line leaves the parser state — in
particular the `parsing_ports_section` flag — entirely unchanged, because the
loop `continue`s on empty lines before any section logic runs; consequently a
port row after a blank line is still ingested: the stream
header / ports marker / `80/tcp open http` / blank / `23/tcp open telnet`
produces an Informational row for port 23 as well. -/
theorem c5_blank_line_keeps_section (ts : String) :
    (∀ st : PState, step ts st "" = st) ∧
    (parseLines ts
      ["Nmap scan report for 10.0.0.9",
       "PORT      STATE SERVICE",
       "80/tcp    open  http",
       "",
       "23/tcp    open  telnet"] ⟨[], []⟩).vulns =
    [⟨"10.0.0.9", 80, "http", "Open port detected", "Informational", ts⟩,
     ⟨"10.0.0.9", 23, "telnet", "Open port detected", "Informational", ts⟩] :=
  ⟨fun _ => rfl, rfl⟩

/-! ## C6: a rescan overwrites mac/vendor/os unconditionally -/

/-- C6 (refuting the claim): after a first scan stored a non-null mac and
vendor for 10.0.0.5, a second parse pass that captured no MAC line (only an
OS hint) overwrites mac and vendor with null — null values do overwrite
non-null previous values. -/
theorem c6_counterexample :
    parseLines "T1"
      ["Nmap scan report for 10.0.0.5",
       "MAC Address: AA:BB:CC:DD:EE:FF (Acme Corp)"] ⟨[], []⟩ =
      ⟨[⟨"10.0.0.5", some "AA:BB:CC:DD:EE:FF", some "Acme Corp", none, some "up", some "T1"⟩], []⟩ ∧
    parseLines "T2"
      ["Nmap scan report for 10.0.0.5", "Running: Linux"]
      (parseLines "T1"
        ["Nmap scan report for 10.0.0.5",
         "MAC Address: AA:BB:CC:DD:EE:FF (Acme Corp)"] ⟨[], []⟩) =
      ⟨[⟨"10.0.0.5", none, none, some "Linux", some "up", some "T2"⟩], []⟩ :=
  ⟨rfl, rfl⟩

/-- C6 (amended): on re-sighting of an ip the device flush is a total
overwrite: whatever row existed before, after the flush the row for that ip
holds exactly the accumulator's mac/vendor/os of the later pass — the later
scan's os wins, and a pass with no MAC line stores null mac/vendor over any
previous non-null values. -/
theorem c6_amended (ts : String) (m0 v0 o0 s0 t0 : Option String) :
    parseLines ts ["Nmap scan report for 10.0.0.5", "Running: Linux"]
      ⟨[⟨"10.0.0.5", m0, v0, o0, s0, t0⟩], []⟩ =
    ⟨[⟨"10.0.0.5", none, none, some "Linux", some "up", some ts⟩], []⟩ := by
  rfl

/-! ## C8: progress extraction in the scan worker -/

/-- C8: the line `About 42.50% done; ETC: ...` emits progress 42; a `% done`
line whose extracted token does not parse as a number emits nothing and
raises nothing; and a non-emitting line leaves the event stream of the
remaining lines untouched (processing continues). -/
theorem c8_progress :
    progressOf "About 42.50% done; ETC: 14:21 (0:02:33 remaining)" = some 42 ∧
    (∀ l : String, strContains l "% done" = true →
      (∀ tok, (pySplit ((pySplitChar '%' l).headD "")).getLast? = some tok →
        pyFloatTrunc? tok = none) →
      progressOf l = none) ∧
    (∀ (pre post : List String) (l : String), progressOf l = none →
      strContains l "Unknown property" = false →
      scanPercentEvents (pre ++ l :: post) = scanPercentEvents (pre ++ post)) := by
  refine ⟨rfl, ?_, ?_⟩
  · intro l h1 h2
    unfold progressOf
    rw [if_pos h1]
    cases hz : (pySplit ((pySplitChar '%' l).headD "")).getLast? with
    | none => rfl
    | some tok => exact h2 tok hz
  · intro pre post l h1 h2
    simp [scanPercentEvents, List.filter_append, List.filterMap_append, h1, h2]

/-- Closed instance of `c8_progress`: the `% done` line `About x.y% done`
yields no event, and the event stream around it is unaffected. -/
theorem c8_progress_witness :
    progressOf "About x.y% done" = none ∧
    scanPercentEvents ["ok line", "About x.y% done", "About 90.01% done"] =
      scanPercentEvents ["ok line", "About 90.01% done"] := by
  constructor
  · exact c8_progress.2.1 "About x.y% done" (by decide)
      (fun tok h => by
        rw [← Option.some.inj h]
        decide)
  · exact c8_progress.2.2 ["ok line"] ["About 90.01% done"] "About x.y% done"
      (by decide) (by decide)

/-! ## C9: storage-failure recovery is not per-call on every write path -/

/-- C9 (refuting the claim): a storage-layer failure on the informational
open-port insert (write 0 of the run) is not caught — the call aborts and
the later host 10.0.0.2 of the same output is never persisted, while the
same stream with no storage failure persists both hosts. -/
theorem c9_counterexample :
    parseLinesF (fun n => n == 0) "T"
      ["Nmap scan report for 10.0.0.1",
       "PORT      STATE SERVICE",
       "80/tcp    open  http",
       "Nmap scan report for 10.0.0.2"] ⟨[], []⟩ = .error ⟨[], []⟩ ∧
    parseLinesF (fun _ => false) "T"
      ["Nmap scan report for 10.0.0.1",
       "PORT      STATE SERVICE",
       "80/tcp    open  http",
       "Nmap scan report for 10.0.0.2"] ⟨[], []⟩ =
    .ok ⟨[⟨"10.0.0.1", none, none, none, some "up", some "T"⟩,
          ⟨"10.0.0.2", none, none, none, some "up", some "T"⟩],
         [⟨"10.0.0.1", 80, "http", "Open port detected", "Informational", "T"⟩]⟩ :=
  ⟨rfl, rfl⟩

/-- C9 (amended): failures on the guarded write paths are recovered per
call: whether or not the script-evidence write (write 0) or the device-flush
insert (write 1) raises, the parse completes normally and the final host
10.0.0.2 is always persisted. -/
theorem c9_amended (ts : String) (b0 b1 : Bool) :
    parseLinesF (fun n => (n == 0 && b0) || (n == 1 && b1)) ts
      ["Nmap scan report for 10.0.0.1",
       "Host script results:",
       "|_smb-vuln-test: VULNERABLE",
       "Nmap scan report for 10.0.0.2"] ⟨[], []⟩ =
    .ok ⟨(if b1 then [] else [⟨"10.0.0.1", none, none, none, some "up", some ts⟩]) ++
          [⟨"10.0.0.2", none, none, none, some "up", some ts⟩],
         if b0 then [] else
           [⟨"10.0.0.1", 0, "smb", "|_smb-vuln-test: VULNERABLE", "High", ts⟩]⟩ := by
  cases b0 <;> cases b1 <;> rfl

/-! ## C10: without a host header nothing is written -/

theorem step_no_header (ts : String) (st : PState) (l : String)
    (hl : strContains (pyStrip l) "Nmap scan report for" = false)
    (hip : st.cursor.currentIp = none) :
    (step ts st l).cursor.currentIp = none ∧ (step ts st l).store = st.store := by
  unfold step
  simp only [hl, Bool.false_eq_true, if_false, hip, pyTruthy, Bool.and_false]
  repeat' split
  all_goals simp_all

/-- C10: if no line of the stream contains the host-header marker
`Nmap scan report for`, the parse leaves the store — both the devices and the
vulnerabilities tables — completely unchanged, whatever port rows, MAC
lines, OS lines, section markers or script lines the stream contains. -/
theorem c10_no_header_no_writes (ts : String) (lines : List String) (store : Store)
    (h : ∀ l ∈ lines, strContains (pyStrip l) "Nmap scan report for" = false) :
    parseLines ts lines store = store := by
  have H : ∀ (ls : List String), (∀ l ∈ ls, strContains (pyStrip l) "Nmap scan report for" = false) →
      ∀ st : PState, st.cursor.currentIp = none →
      (ls.foldl (step ts) st).cursor.currentIp = none ∧
      (ls.foldl (step ts) st).store = st.store := by
    intro ls
    induction ls with
    | nil => intro _ st h0; exact ⟨h0, rfl⟩
    | cons l ls ih =>
        intro hls st h0
        have hstep := step_no_header ts st l (hls l (List.mem_cons_self l ls)) h0
        have hrest := ih (fun l' hl' => hls l' (List.mem_cons_of_mem l hl')) (step ts st l) hstep.1
        exact ⟨hrest.1, hrest.2.trans hstep.2⟩
  obtain ⟨h1, h2⟩ := H lines h ⟨Cursor.init, store⟩ rfl
  unfold parseLines endFlush
  rw [h1]
  exact h2

/-- Closed instance of `c10_no_header_no_writes`: a stream full of port rows,
MAC/OS lines, markers and script lines, but with no host header, writes
nothing. -/
theorem c10_no_header_no_writes_witness :
    parseLines "T"
      ["MAC Address: AA:BB:CC:DD:EE:FF (Acme Corp)",
       "Running: Linux",
       "PORT      STATE SERVICE",
       "80/tcp    open  http",
       "Host script results:",
       "|_smb-vuln-test: VULNERABLE"]
      ⟨[], []⟩ = ⟨[], []⟩ :=
  c10_no_header_no_writes "T" _ _ (by intro l hl; fin_cases hl <;> decide)

/-! ## C4: the ports-section rule -/

/-- C4: in the Ports section with a current ip, a content line whose three
leading fields are `<port>/<proto>`, a state in {open, closed, filtered} and
a service produces exactly one Informational finding with evidence
`Open port detected` when the state is `open` and the natural key is new;
on a natural-key collision nothing is written, and `closed`/`filtered`
lines write nothing. -/
theorem c4_ports_rule (ts ip line : String) (vs : List Vuln)
    (p0 p1 p2 : String) (rest : List String) (port : Int)
    (hsplit : pySplit line = p0 :: p1 :: p2 :: rest)
    (hslash : strContains p0 "/" = true)
    (hport : pyInt? ((pySplitChar '/' p0).headD "") = some port)
    (hstate : p1 = "open" ∨ p1 = "closed" ∨ p1 = "filtered") :
    portsLine ts ip line vs =
      if p1 = "open" ∧ hasVKey ip port p2 vs = false
      then vs ++ [⟨ip, port, p2, "Open port detected", "Informational", ts⟩]
      else vs := by
  unfold portsLine
  rw [hsplit]
  have hc : (strContains p0 "/" && (decide (p1 = "open") || decide (p1 = "closed") || decide (p1 = "filtered"))) = true := by
    rw [hslash]; rcases hstate with h | h | h <;> simp [h]
  simp only [hc, if_true, hport]
  by_cases ho : p1 = "open"
  · simp only [ho, if_true]
    unfold storeOpenPort
    by_cases hk : hasVKey ip port p2 vs = true
    · rw [if_pos hk, if_neg (by simp [hk])]
    · rw [if_neg (by simpa using hk),
        if_pos (by refine ⟨?_, ?_⟩ <;> simp_all)]
  · rw [if_neg ho, if_neg (by rintro ⟨h, -⟩; exact ho h)]

/-- Closed instance of `c4_ports_rule`: `80/tcp    open  http` against an
empty table inserts the single Informational row. -/
theorem c4_ports_rule_witness :
    portsLine "T" "10.0.0.1" "80/tcp    open  http" [] =
      [⟨"10.0.0.1", 80, "http", "Open port detected", "Informational", "T"⟩] :=
  (c4_ports_rule "T" "10.0.0.1" "80/tcp    open  http" [] "80/tcp" "open" "http" []
    80 rfl (by decide) (by decide) (Or.inl rfl)).trans (by decide)

/-! ## C3: the host-script rule -/

/-- C3: in the HostScript section with a current ip, a script-output line
(prefix `|_` or `| `) yields a High-severity finding exactly when it
contains a vulnerability-indicating term and none of the negation terms;
the finding's port defaults to 0 without a `<digits>/tcp` sub-pattern and
its service falls back to the script-family heuristic and then the
`host_level_service` sentinel; a line with a negation term — in particular
one containing `could not negotiate` next to `vulnerable` — writes
nothing. -/
theorem c3_script_rule (ts ip line : String) (vs : List Vuln)
    (hpre : (strStarts line "|_" || strStarts line "| ") = true) :
    (specVulnTerm (pyStrip line) = true ∧ specNegTerm (pyStrip line) = false →
      scriptLine ts ip line vs =
        storeScriptVuln ts ip (scriptPort (pyStrip line))
          (scriptService (pyStrip line)) (pyStrip line) vs ∧
      (scriptLine ts ip line vs).any
        (fun v => vulnKeyIs ip (scriptPort (pyStrip line)) (scriptService (pyStrip line)) v &&
          (v.scriptOutput = pyStrip line && (v.severity = "High" && v.timestamp = ts))) = true) ∧
    (¬(specVulnTerm (pyStrip line) = true ∧ specNegTerm (pyStrip line) = false) →
      scriptLine ts ip line vs = vs) ∧
    (strContains (strLower (pyStrip line)) "could not negotiate" = true →
      scriptLine ts ip line vs = vs) ∧
    (portTcpScan (pyStrip line).toList = none → scriptPort (pyStrip line) = 0) ∧
    (serviceTcpScan (pyStrip line).toList = none →
      scriptService (pyStrip line) =
        (if strContains (pyStrip line) "smb-vuln" = true then "smb"
         else if strContains (pyStrip line) "http-vuln" = true then "http"
         else "host_level_service")) := by
  have hvul : isVulnerable (pyStrip line) =
      (specVulnTerm (pyStrip line) && !specNegTerm (pyStrip line)) :=
    isVulnerable_eq (pyStrip line)
  refine ⟨?_, ?_, ?_, ?_, ?_⟩
  · rintro ⟨h1, h2⟩
    have hv : isVulnerable (pyStrip line) = true := by rw [hvul, h1, h2]; rfl
    have he : scriptLine ts ip line vs =
        storeScriptVuln ts ip (scriptPort (pyStrip line))
          (scriptService (pyStrip line)) (pyStrip line) vs := by
      unfold scriptLine
      rw [if_pos hpre, if_pos hv]
    exact ⟨he, he ▸ storeScriptVuln_high ts ip _ _ _ vs⟩
  · intro hno
    have hv : isVulnerable (pyStrip line) = false := by
      rw [hvul]
      cases hs1 : specVulnTerm (pyStrip line) <;> cases hs2 : specNegTerm (pyStrip line) <;>
        first
          | rfl
          | exact absurd ⟨hs1, hs2⟩ hno
    unfold scriptLine
    rw [if_pos hpre, if_neg (by simp [hv])]
  · intro hneg
    have hv : isVulnerable (pyStrip line) = false := by
      rw [hvul]
      have : specNegTerm (pyStrip line) = true := by
        unfold specNegTerm
        rw [hneg]
        simp
      rw [this]
      simp
    unfold scriptLine
    rw [if_pos hpre, if_neg (by simp [hv])]
  · intro h0
    unfold scriptPort
    rw [h0]
  · intro h0
    unfold scriptService
    rw [h0]

/-- Closed instance of `c3_script_rule`: `|_smb-vuln-test: VULNERABLE`
inserts a High host-level smb finding, `|_sslv2: vulnerable, but could not negotiate`
writes nothing. -/
theorem c3_script_rule_witness :
    scriptLine "T" "10.0.0.1" "|_smb-vuln-test: VULNERABLE" [] =
      storeScriptVuln "T" "10.0.0.1" (scriptPort (pyStrip "|_smb-vuln-test: VULNERABLE"))
        (scriptService (pyStrip "|_smb-vuln-test: VULNERABLE"))
        (pyStrip "|_smb-vuln-test: VULNERABLE") [] ∧
    scriptLine "T" "10.0.0.1" "|_sslv2: vulnerable, but could not negotiate" [] = [] :=
  ⟨((c3_script_rule "T" "10.0.0.1" "|_smb-vuln-test: VULNERABLE" [] (by decide)).1
      ⟨by decide, by decide⟩).1,
   (c3_script_rule "T" "10.0.0.1" "|_sslv2: vulnerable, but could not negotiate" []
      (by decide)).2.2.1 (by decide)⟩

/-! ## Factorisation of the parse into cursor run and store operations -/

theorem portsLine_op (ts ip line : String) (s : Store) :
    applyOps ts (portsLineOp ip line) s = { s with vulns := portsLine ts ip line s.vulns } := by
  unfold portsLineOp portsLine
  try dsimp only
  repeat' split
  all_goals simp [applyOps, applyOp]

theorem scriptLine_op (ts ip line : String) (s : Store) :
    applyOps ts (scriptLineOp ip line) s = { s with vulns := scriptLine ts ip line s.vulns } := by
  unfold scriptLineOp scriptLine
  dsimp only
  repeat' split
  all_goals simp [applyOps, applyOp]

theorem step_factor (ts : String) (st : PState) (l : String) :
    step ts st l = ⟨cursorStep st.cursor l, applyOps ts (lineOps st.cursor l) st.store⟩ := by
  unfold step cursorStep lineOps
  dsimp only
  repeat'
    first
      | rfl
      | (rw [portsLine_op])
      | (rw [scriptLine_op])
      | split
  all_goals simp_all [portsLine_op, scriptLine_op]

theorem applyOps_append (ts : String) (w1 w2 : List StoreOp) (s : Store) :
    applyOps ts (w1 ++ w2) s = applyOps ts w2 (applyOps ts w1 s) := by
  simp [applyOps, List.foldl_append]

theorem parse_factor (ts : String) :
    ∀ (ls : List String) (st : PState),
      endFlush ts (ls.foldl (step ts) st) = applyOps ts (opsAux st.cursor ls) st.store := by
  intro ls
  induction ls with
  | nil =>
      intro st
      unfold opsAux endFlush endOps
      cases h : st.cursor.currentIp with
      | none => simp [h, applyOps, applyOp]
      | some ip => by_cases hip : ip = "" <;> simp [h, hip, applyOps, applyOp]
  | cons l ls ih =>
      intro st
      rw [List.foldl_cons, ih, step_factor]
      show applyOps ts (opsAux (cursorStep st.cursor l) ls)
            (applyOps ts (lineOps st.cursor l) st.store) =
        applyOps ts (lineOps st.cursor l ++ opsAux (cursorStep st.cursor l) ls) st.store
      rw [applyOps_append]

theorem parse_ops (ts : String) (ls : List String) (store : Store) :
    parseLines ts ls store = applyOps ts (opsAux Cursor.init ls) store :=
  parse_factor ts ls ⟨Cursor.init, store⟩

/-! ## Device-count lemmas -/

theorem devCount_cons (H : String) (d : Device) (ds : List Device) :
    devCount H (d :: ds) = (if d.ip = H then 1 else 0) + devCount H ds := by
  by_cases h : d.ip = H <;> simp [devCount, List.filter_cons, h, Nat.add_comm]

theorem devCount_append (H : String) (ds es : List Device) :
    devCount H (ds ++ es) = devCount H ds + devCount H es := by
  simp [devCount, List.filter_append]

theorem devCount_devUpdate (ts ip : String) (m v o : Option String) (H : String)
    (ds : List Device) :
    devCount H (devUpdate ts ip m v o ds) = devCount H ds := by
  induction ds with
  | nil => rfl
  | cons d ds ih =>
      have hcons : devUpdate ts ip m v o (d :: ds) =
          (if d.ip = ip then
            { d with status := some "up", lastSeen := some ts, mac := m, vendor := v, os := o }
           else d) :: devUpdate ts ip m v o ds := rfl
      rw [hcons, devCount_cons, devCount_cons, ih]
      by_cases hd : d.ip = ip
      · rw [if_pos hd]
      · rw [if_neg hd]

theorem hasIp_false_count (H : String) (ds : List Device) (h : hasIp H ds = false) :
    devCount H ds = 0 := by
  induction ds with
  | nil => rfl
  | cons d ds ih =>
      simp only [hasIp, List.any_cons, Bool.or_eq_false_iff] at h
      rw [devCount_cons, if_neg (by simpa using h.1), ih h.2]

theorem hasIp_true_count (H : String) (ds : List Device) (h : hasIp H ds = true) :
    1 ≤ devCount H ds := by
  induction ds with
  | nil => simp [hasIp] at h
  | cons d ds ih =>
      simp only [hasIp, List.any_cons, Bool.or_eq_true] at h
      rw [devCount_cons]
      rcases h with h | h
      · rw [if_pos (by simpa using h)]; omega
      · have := ih h; omega

theorem devCount_flushDevice_other (ts ip : String) (m v o : Option String)
    (H : String) (ds : List Device) (hne : ip ≠ H) :
    devCount H (flushDevice ts ip m v o ds) = devCount H ds := by
  unfold flushDevice devInsert
  rw [devCount_devUpdate]
  split
  · rfl
  · rw [devCount_append, devCount_cons]
    simp [hne, devCount]

theorem devCount_flushDevice_self (ts : String) (m v o : Option String)
    (H : String) (ds : List Device) (hle : devCount H ds ≤ 1) :
    devCount H (flushDevice ts H m v o ds) = 1 := by
  unfold flushDevice devInsert
  rw [devCount_devUpdate]
  split
  · rename_i hany
    have h1 := hasIp_true_count H ds hany
    omega
  · rename_i hany
    simp only [Bool.not_eq_true] at hany
    have h0 := hasIp_false_count H ds hany
    rw [devCount_append, devCount_cons, h0]
    simp [devCount]

theorem devCount_flushDevice_le (ts ip : String) (m v o : Option String)
    (H : String) (ds : List Device) (hle : devCount H ds ≤ 1) :
    devCount H (flushDevice ts ip m v o ds) ≤ 1 := by
  by_cases hip : ip = H
  · rw [hip, devCount_flushDevice_self ts m v o H ds hle]
  · rw [devCount_flushDevice_other ts ip m v o H ds hip]; exact hle

theorem devCount_flushDevice_keep (ts ip : String) (m v o : Option String)
    (H : String) (ds : List Device) (hle : devCount H ds ≤ 1)
    (hq : devCount H ds = 1 ∨ ip = H) :
    devCount H (flushDevice ts ip m v o ds) = 1 := by
  by_cases hip : ip = H
  · rw [hip]; exact devCount_flushDevice_self ts m v o H ds hle
  · rw [devCount_flushDevice_other ts ip m v o H ds hip]
    rcases hq with h | h
    · exact h
    · exact absurd h hip

theorem applyOps_devCount_keep (ts : String) (H : String) (w : List StoreOp) :
    ∀ s : Store, devCount H s.devices = 1 →
      devCount H (applyOps ts w s).devices = 1 := by
  induction w with
  | nil => intro s h; exact h
  | cons op w ih =>
      intro s h
      cases op with
      | dev ip m v o =>
          exact ih _ (devCount_flushDevice_keep ts ip m v o H s.devices (le_of_eq h) (Or.inl h))
      | openPort ip p sv => exact ih _ h
      | scriptV ip p sv ev => exact ih _ h

theorem applyOps_devCount_one (ts : String) (H : String) (w : List StoreOp) :
    ∀ s : Store, devCount H s.devices ≤ 1 → w.any (isDevFor H) = true →
      devCount H (applyOps ts w s).devices = 1 := by
  induction w with
  | nil => intro s _ hw; simp at hw
  | cons op w ih =>
      intro s hle hw
      cases op with
      | dev ip m v o =>
          by_cases hip : ip = H
          · rw [hip]
            exact applyOps_devCount_keep ts H w _
              (devCount_flushDevice_self ts m v o H s.devices hle)
          · have hw' : w.any (isDevFor H) = true := by
              simpa [isDevFor, hip] using hw
            exact ih _ (devCount_flushDevice_le ts ip m v o H s.devices hle) hw'
      | openPort ip p sv =>
          have hw' : w.any (isDevFor H) = true := by simpa [isDevFor] using hw
          exact ih _ hle hw'
      | scriptV ip p sv ev =>
          have hw' : w.any (isDevFor H) = true := by simpa [isDevFor] using hw
          exact ih _ hle hw'

/-! ## Cursor lemmas and the presence of a device op per header -/

theorem cursorStep_not_header (c : Cursor) (l : String)
    (hl : strContains (pyStrip l) "Nmap scan report for" = false) :
    (cursorStep c l).currentIp = c.currentIp := by
  unfold cursorStep
  dsimp only
  repeat' split
  all_goals simp_all

theorem cursorStep_header (c : Cursor) (l : String)
    (hl : strContains (pyStrip l) "Nmap scan report for" = true) :
    cursorStep c l = ⟨some (headerIp (pyStrip l)), none, none, none, false, false⟩ := by
  have hne : ¬(pyStrip l = "") := by
    intro he
    rw [he] at hl
    exact absurd hl (by decide)
  unfold cursorStep
  rw [if_neg hne, if_pos hl]

theorem lineOps_header (c : Cursor) (l ip0 : String)
    (hl : strContains (pyStrip l) "Nmap scan report for" = true)
    (heq : c.currentIp = some ip0) (hip0 : ip0 ≠ "") :
    lineOps c l = [.dev ip0 c.currentMac c.currentVendor c.currentOs] := by
  have hne : ¬(pyStrip l = "") := by
    intro he
    rw [he] at hl
    exact absurd hl (by decide)
  unfold lineOps
  rw [if_neg hne, if_pos hl, heq]
  simp [hip0]

theorem opsAux_any_of_ip (H : String) (hne : H ≠ "") :
    ∀ (post : List String) (c : Cursor), c.currentIp = some H →
      (opsAux c post).any (isDevFor H) = true := by
  intro post
  induction post with
  | nil =>
      intro c hc
      unfold opsAux endOps
      rw [hc]
      simp [hne, isDevFor]
  | cons x xs ih =>
      intro c hc
      unfold opsAux
      rw [List.any_append]
      by_cases hx : strContains (pyStrip x) "Nmap scan report for" = true
      · rw [lineOps_header c x H hx hc hne]
        simp [isDevFor]
      · rw [ih (cursorStep c x) (by rw [cursorStep_not_header c x (by simpa using hx), hc])]
        simp

theorem opsAux_any_of_header (H l : String)
    (hl : strContains (pyStrip l) "Nmap scan report for" = true)
    (hH : headerIp (pyStrip l) = H) (hne : H ≠ "") :
    ∀ (pre : List String) (c : Cursor) (post : List String),
      (opsAux c (pre ++ l :: post)).any (isDevFor H) = true := by
  intro pre
  induction pre with
  | nil =>
      intro c post
      show ((lineOps c l) ++ opsAux (cursorStep c l) post).any (isDevFor H) = true
      rw [List.any_append,
        opsAux_any_of_ip H hne post (cursorStep c l) (by rw [cursorStep_header c l hl, hH])]
      simp
  | cons x xs ih =>
      intro c post
      show ((lineOps c x) ++ opsAux (cursorStep c x) (xs ++ l :: post)).any (isDevFor H) = true
      rw [List.any_append, ih (cursorStep c x) post]
      simp

/-! ## C2: exactly one device row per host header -/

/-- C2: for every host header line of the stream extracting ip `H`, the parse
ends with exactly one devices row for `H` (given the schema's at-most-one-row
start), even when the header is followed by no data at all — the
unconditional end-of-stream flush persists a trailing host with no further
lines required. -/
theorem c2_exactly_one_device (ts : String) (lines : List String) (store : Store)
    (H : String) (hne : H ≠ "") (hs : devCount H store.devices ≤ 1)
    (hH : ∃ l ∈ lines, strContains (pyStrip l) "Nmap scan report for" = true ∧
      headerIp (pyStrip l) = H) :
    devCount H (parseLines ts lines store).devices = 1 := by
  obtain ⟨l, hmem, hhdr, hipH⟩ := hH
  obtain ⟨pre, post, rfl⟩ := List.append_of_mem hmem
  rw [parse_ops]
  exact applyOps_devCount_one ts H _ store hs
    (opsAux_any_of_header H l hhdr hipH hne pre Cursor.init post)

/-- Closed instance of `c2_exactly_one_device`: a stream that ends
immediately after the header still yields exactly one row for the host. -/
theorem c2_exactly_one_device_witness :
    devCount "10.0.0.7"
      (parseLines "T" ["Nmap scan report for 10.0.0.7"] ⟨[], []⟩).devices = 1 :=
  c2_exactly_one_device "T" _ _ "10.0.0.7" (by decide) (by decide)
    ⟨"Nmap scan report for 10.0.0.7", by simp, by decide, by decide⟩

/-! ## Vulnerability-table lemmas for the idempotence argument -/

theorem vulnKeyIs_update (ip : String) (p : Int) (sv : String) (v : Vuln)
    (e s t : String) :
    vulnKeyIs ip p sv { v with scriptOutput := e, severity := s, timestamp := t } =
      vulnKeyIs ip p sv v := rfl

theorem storeOpenPort_of_hasVKey (ts ip : String) (p : Int) (sv : String)
    (vs : List Vuln) (h : hasVKey ip p sv vs = true) :
    storeOpenPort ts ip p sv vs = vs := by
  unfold storeOpenPort
  rw [if_pos h]

theorem hasVKey_storeOpenPort_self (ts ip : String) (p : Int) (sv : String)
    (vs : List Vuln) :
    hasVKey ip p sv (storeOpenPort ts ip p sv vs) = true := by
  unfold storeOpenPort
  split
  · assumption
  · simp [hasVKey, List.any_append, vulnKeyIs]

theorem hasVKey_storeOpenPort_mono (ts ip' : String) (p' : Int) (sv' : String)
    (ip : String) (p : Int) (sv : String) (vs : List Vuln)
    (h : hasVKey ip p sv vs = true) :
    hasVKey ip p sv (storeOpenPort ts ip' p' sv' vs) = true := by
  unfold storeOpenPort
  split
  · exact h
  · simp [hasVKey, List.any_append] at h ⊢
    exact Or.inl h

theorem hasVKey_storeScriptVuln_self (ts ip : String) (p : Int) (sv e : String)
    (vs : List Vuln) :
    hasVKey ip p sv (storeScriptVuln ts ip p sv e vs) = true := by
  induction vs with
  | nil => simp [storeScriptVuln, hasVKey, vulnKeyIs]
  | cons v vs ih =>
      by_cases hv : vulnKeyIs ip p sv v = true
      · simp [storeScriptVuln, hv, hasVKey, List.any_cons, vulnKeyIs_update]
      · simp only [storeScriptVuln, hv, Bool.false_eq_true, if_false]
        simp [hasVKey, List.any_cons] at ih ⊢
        exact Or.inr ih

theorem hasVKey_storeScriptVuln_mono (ts ip' : String) (p' : Int) (sv' e' : String)
    (ip : String) (p : Int) (sv : String) (vs : List Vuln)
    (h : hasVKey ip p sv vs = true) :
    hasVKey ip p sv (storeScriptVuln ts ip' p' sv' e' vs) = true := by
  induction vs with
  | nil => simp [hasVKey] at h
  | cons v vs ih =>
      simp only [hasVKey, List.any_cons, Bool.or_eq_true] at h
      by_cases hv : vulnKeyIs ip' p' sv' v = true
      · simp only [storeScriptVuln, hv, if_true]
        simp only [hasVKey, List.any_cons, Bool.or_eq_true, vulnKeyIs_update]
        exact h
      · simp only [storeScriptVuln, hv, Bool.false_eq_true, if_false]
        simp only [hasVKey, List.any_cons, Bool.or_eq_true]
        rcases h with h | h
        · exact Or.inl h
        · exact Or.inr (ih h)

theorem hasVKey_storeScriptVuln_of_has (ts ip : String) (p : Int) (sv e : String)
    (ip' : String) (p' : Int) (sv' : String) (vs : List Vuln)
    (h : hasVKey ip p sv vs = true) :
    hasVKey ip' p' sv' (storeScriptVuln ts ip p sv e vs) = hasVKey ip' p' sv' vs := by
  induction vs with
  | nil => simp [hasVKey] at h
  | cons v vs ih =>
      by_cases hv : vulnKeyIs ip p sv v = true
      · simp [storeScriptVuln, hv, hasVKey, List.any_cons, vulnKeyIs_update]
      · have h' : hasVKey ip p sv vs = true := by
          simpa [hasVKey, List.any_cons, hv] using h
        have hrec := ih h'
        simp only [hasVKey] at hrec
        simp [storeScriptVuln, hv, hasVKey, List.any_cons, hrec]

theorem storeScriptVuln_append_of_hasVKey (ts ip : String) (p : Int) (sv e : String)
    (vs sfx : List Vuln) (h : hasVKey ip p sv vs = true) :
    storeScriptVuln ts ip p sv e (vs ++ sfx) = storeScriptVuln ts ip p sv e vs ++ sfx := by
  induction vs with
  | nil => simp [hasVKey] at h
  | cons v vs ih =>
      by_cases hv : vulnKeyIs ip p sv v = true
      · simp [storeScriptVuln, hv]
      · have h' : hasVKey ip p sv vs = true := by
          simpa [hasVKey, List.any_cons, hv] using h
        simp [storeScriptVuln, hv, ih h']

theorem storeScriptVuln_absorb (ts1 ts2 ip : String) (p : Int) (sv e1 e2 : String)
    (vs : List Vuln) :
    storeScriptVuln ts2 ip p sv e2 (storeScriptVuln ts1 ip p sv e1 vs) =
      storeScriptVuln ts2 ip p sv e2 vs := by
  induction vs with
  | nil => simp [storeScriptVuln, vulnKeyIs]
  | cons v vs ih =>
      by_cases hv : vulnKeyIs ip p sv v = true
      · simp [storeScriptVuln, hv, vulnKeyIs_update]
      · simp [storeScriptVuln, hv, ih]

theorem storeOpenPort_storeScriptVuln_comm (ts ts' ip : String) (p : Int) (sv e : String)
    (ip' : String) (p' : Int) (sv' : String) (vs : List Vuln)
    (h : hasVKey ip p sv vs = true) :
    storeOpenPort ts' ip' p' sv' (storeScriptVuln ts ip p sv e vs) =
      storeScriptVuln ts ip p sv e (storeOpenPort ts' ip' p' sv' vs) := by
  by_cases hk' : hasVKey ip' p' sv' vs = true
  · rw [storeOpenPort_of_hasVKey _ _ _ _ _ hk',
      storeOpenPort_of_hasVKey _ _ _ _ _
        (by rw [hasVKey_storeScriptVuln_of_has ts ip p sv e ip' p' sv' vs h]; exact hk')]
  · have hk'f : hasVKey ip' p' sv' vs = false := by
      simpa using hk'
    have h1 : hasVKey ip' p' sv' (storeScriptVuln ts ip p sv e vs) = false := by
      rw [hasVKey_storeScriptVuln_of_has ts ip p sv e ip' p' sv' vs h]
      exact hk'f
    unfold storeOpenPort
    rw [if_neg (by simp [h1]), if_neg (by simp [hk'f])]
    exact (storeScriptVuln_append_of_hasVKey ts ip p sv e vs _ h).symm

theorem storeScriptVuln_comm (ts ts' ip : String) (p : Int) (sv e : String)
    (ip' : String) (p' : Int) (sv' e' : String) (vs : List Vuln)
    (hne : ¬(ip' = ip ∧ p' = p ∧ sv' = sv)) (h : hasVKey ip p sv vs = true) :
    storeScriptVuln ts' ip' p' sv' e' (storeScriptVuln ts ip p sv e vs) =
      storeScriptVuln ts ip p sv e (storeScriptVuln ts' ip' p' sv' e' vs) := by
  induction vs with
  | nil => simp [hasVKey] at h
  | cons v vs ih =>
      by_cases hv : vulnKeyIs ip p sv v = true
      · have hv' : vulnKeyIs ip' p' sv' v = false := by
          cases hq : vulnKeyIs ip' p' sv' v
          · rfl
          · simp only [vulnKeyIs, Bool.and_eq_true, decide_eq_true_eq] at hv hq
            exact absurd ⟨hq.1.1.symm.trans hv.1.1, hq.1.2.symm.trans hv.1.2,
              hq.2.symm.trans hv.2⟩ hne
        simp [storeScriptVuln, hv, hv', vulnKeyIs_update]
      · by_cases hv' : vulnKeyIs ip' p' sv' v = true
        · simp [storeScriptVuln, hv, hv', vulnKeyIs_update]
        · have h' : hasVKey ip p sv vs = true := by
            simpa [hasVKey, List.any_cons, hv] using h
          simp [storeScriptVuln, hv, hv', ih h']

theorem vulnKeys_storeScriptVuln_of_has (ts ip : String) (p : Int) (sv e : String)
    (vs : List Vuln) (h : hasVKey ip p sv vs = true) :
    (storeScriptVuln ts ip p sv e vs).map (fun v => (v.deviceIp, v.port, v.service)) =
      vs.map (fun v => (v.deviceIp, v.port, v.service)) := by
  induction vs with
  | nil => simp [hasVKey] at h
  | cons v vs ih =>
      by_cases hv : vulnKeyIs ip p sv v = true
      · simp [storeScriptVuln, hv]
      · have h' : hasVKey ip p sv vs = true := by
          simpa [hasVKey, List.any_cons, hv] using h
        simp [storeScriptVuln, hv, ih h']

theorem vulnKeys_storeScriptVuln_of_not (ts ip : String) (p : Int) (sv e : String)
    (vs : List Vuln) (h : hasVKey ip p sv vs = false) :
    (storeScriptVuln ts ip p sv e vs).map (fun v => (v.deviceIp, v.port, v.service)) =
      vs.map (fun v => (v.deviceIp, v.port, v.service)) ++ [(ip, p, sv)] := by
  induction vs with
  | nil => simp [storeScriptVuln]
  | cons v vs ih =>
      simp only [hasVKey, List.any_cons, Bool.or_eq_false_iff] at h
      simp [storeScriptVuln, h.1, ih (by simpa [hasVKey] using h.2)]

theorem key_not_mem_of_hasVKey_false (ip : String) (p : Int) (sv : String)
    (vs : List Vuln) (h : hasVKey ip p sv vs = false) :
    (ip, p, sv) ∉ vs.map (fun v => (v.deviceIp, v.port, v.service)) := by
  induction vs with
  | nil => simp
  | cons v vs ih =>
      simp only [hasVKey, List.any_cons, Bool.or_eq_false_iff] at h
      simp only [List.map_cons, List.mem_cons]
      rintro (heq | hmem)
      · simp only [Prod.mk.injEq] at heq
        have hk : vulnKeyIs ip p sv v = true := by
          simp [vulnKeyIs, heq.1.symm, heq.2.1.symm, heq.2.2.symm]
        rw [h.1] at hk
        exact absurd hk (by simp)
      · exact absurd hmem (ih (by simpa [hasVKey] using h.2))

theorem storeScriptVuln_set_of_hasVKey (ts ip : String) (p : Int) (sv e : String)
    (vs : List Vuln) (h : hasVKey ip p sv vs = true) :
    ∃ i v, vs.get? i = some v ∧ vulnKeyIs ip p sv v = true ∧
      storeScriptVuln ts ip p sv e vs =
        vs.set i { v with scriptOutput := e, severity := "High", timestamp := ts } := by
  induction vs with
  | nil => simp [hasVKey] at h
  | cons v vs ih =>
      by_cases hv : vulnKeyIs ip p sv v = true
      · exact ⟨0, v, rfl, hv, by simp [storeScriptVuln, hv]⟩
      · have h' : hasVKey ip p sv vs = true := by
          simpa [hasVKey, List.any_cons, hv] using h
        obtain ⟨i, u, hget, hkey, heq⟩ := ih h'
        exact ⟨i + 1, u, by simpa using hget, hkey, by simp [storeScriptVuln, hv, heq]⟩

/-! ## Devices-table lemmas for the idempotence argument -/

theorem devIps_devUpdate (ts ip : String) (m v o : Option String) (ds : List Device) :
    (devUpdate ts ip m v o ds).map (fun d => d.ip) = ds.map (fun d => d.ip) := by
  induction ds with
  | nil => rfl
  | cons d ds ih =>
      have hcons : devUpdate ts ip m v o (d :: ds) =
          (if d.ip = ip then
            { d with status := some "up", lastSeen := some ts, mac := m, vendor := v, os := o }
           else d) :: devUpdate ts ip m v o ds := rfl
      rw [hcons, List.map_cons, List.map_cons, ih]
      by_cases hd : d.ip = ip
      · rw [if_pos hd]
      · rw [if_neg hd]

theorem hasIp_devUpdate (ts ip : String) (m v o : Option String) (k : String)
    (ds : List Device) :
    hasIp k (devUpdate ts ip m v o ds) = hasIp k ds := by
  induction ds with
  | nil => rfl
  | cons d ds ih =>
      have hcons : devUpdate ts ip m v o (d :: ds) =
          (if d.ip = ip then
            { d with status := some "up", lastSeen := some ts, mac := m, vendor := v, os := o }
           else d) :: devUpdate ts ip m v o ds := rfl
      simp only [hasIp] at ih ⊢
      rw [hcons, List.any_cons, List.any_cons, ih]
      by_cases hd : d.ip = ip
      · rw [if_pos hd]
      · rw [if_neg hd]

theorem devInsert_of_hasIp (ip : String) (ds : List Device) (h : hasIp ip ds = true) :
    devInsert ip ds = ds := by
  unfold devInsert
  simp only [hasIp] at h
  rw [if_pos h]

theorem hasIp_devInsert_self (ip : String) (ds : List Device) :
    hasIp ip (devInsert ip ds) = true := by
  unfold devInsert
  split
  · assumption
  · simp [hasIp, List.any_append]

theorem hasIp_devInsert_mono (ip k : String) (ds : List Device)
    (h : hasIp k ds = true) :
    hasIp k (devInsert ip ds) = true := by
  unfold devInsert
  split
  · exact h
  · simp only [hasIp] at h
    simp [hasIp, List.any_append, h]

theorem hasIp_flushDevice_self (ts ip : String) (m v o : Option String)
    (ds : List Device) :
    hasIp ip (flushDevice ts ip m v o ds) = true := by
  unfold flushDevice
  rw [hasIp_devUpdate]
  exact hasIp_devInsert_self ip ds

theorem hasIp_flushDevice_mono (ts ip : String) (m v o : Option String) (k : String)
    (ds : List Device) (h : hasIp k ds = true) :
    hasIp k (flushDevice ts ip m v o ds) = true := by
  unfold flushDevice
  rw [hasIp_devUpdate]
  exact hasIp_devInsert_mono ip k ds h

theorem devUpdate_devUpdate (ts1 ts2 ip : String) (m1 v1 o1 m2 v2 o2 : Option String)
    (ds : List Device) :
    devUpdate ts2 ip m2 v2 o2 (devUpdate ts1 ip m1 v1 o1 ds) =
      devUpdate ts2 ip m2 v2 o2 ds := by
  unfold devUpdate
  rw [List.map_map]
  apply List.map_congr_left
  intro d _
  simp only [Function.comp_apply]
  split_ifs <;> simp_all

theorem devUpdate_comm (ts ts' ip ip' : String) (m v o m' v' o' : Option String)
    (ds : List Device) (hne : ip ≠ ip') :
    devUpdate ts' ip' m' v' o' (devUpdate ts ip m v o ds) =
      devUpdate ts ip m v o (devUpdate ts' ip' m' v' o' ds) := by
  unfold devUpdate
  rw [List.map_map, List.map_map]
  apply List.map_congr_left
  intro d _
  simp only [Function.comp_apply]
  split_ifs <;> simp_all

theorem devUpdate_append (ts ip : String) (m v o : Option String)
    (xs ys : List Device) :
    devUpdate ts ip m v o (xs ++ ys) =
      devUpdate ts ip m v o xs ++ devUpdate ts ip m v o ys := by
  simp [devUpdate]

theorem flushDevice_absorb (ts1 ts2 ip : String) (m1 v1 o1 m2 v2 o2 : Option String)
    (ds : List Device) :
    flushDevice ts2 ip m2 v2 o2 (flushDevice ts1 ip m1 v1 o1 ds) =
      flushDevice ts2 ip m2 v2 o2 ds := by
  unfold flushDevice
  rw [devInsert_of_hasIp ip _ (by rw [hasIp_devUpdate]; exact hasIp_devInsert_self ip ds),
    devUpdate_devUpdate]

theorem flushDevice_comm (ts ts' ip ip' : String) (m v o m' v' o' : Option String)
    (ds : List Device) (hne : ip ≠ ip') (h : hasIp ip ds = true) :
    flushDevice ts' ip' m' v' o' (flushDevice ts ip m v o ds) =
      flushDevice ts ip m v o (flushDevice ts' ip' m' v' o' ds) := by
  unfold flushDevice
  rw [devInsert_of_hasIp ip ds h,
    devInsert_of_hasIp ip _ (by rw [hasIp_devUpdate]; exact hasIp_devInsert_mono ip' ip ds h)]
  by_cases hk' : hasIp ip' ds = true
  · rw [devInsert_of_hasIp ip' _ (by rw [hasIp_devUpdate]; exact hk'),
      devInsert_of_hasIp ip' ds hk']
    exact devUpdate_comm ts ts' ip ip' m v o m' v' o' ds hne
  · have hk'f : hasIp ip' (devUpdate ts ip m v o ds) = false := by
      rw [hasIp_devUpdate]
      simpa using hk'
    unfold devInsert
    simp only [hasIp] at hk'
    rw [if_neg (by simp only [hasIp] at hk'f; simp [hk'f]),
      if_neg hk']
    rw [devUpdate_append, devUpdate_append]
    rw [devUpdate_comm ts ts' ip ip' m v o m' v' o' ds hne]
    simp [devUpdate, Ne.symm hne]

theorem devIps_flushDevice_of_hasIp (ts ip : String) (m v o : Option String)
    (ds : List Device) (h : hasIp ip ds = true) :
    (flushDevice ts ip m v o ds).map (fun d => d.ip) = ds.map (fun d => d.ip) := by
  unfold flushDevice
  rw [devInsert_of_hasIp ip ds h, devIps_devUpdate]

theorem devIps_flushDevice_of_not (ts ip : String) (m v o : Option String)
    (ds : List Device) (h : hasIp ip ds = false) :
    (flushDevice ts ip m v o ds).map (fun d => d.ip) = ds.map (fun d => d.ip) ++ [ip] := by
  unfold flushDevice devInsert
  rw [if_neg (by simp only [hasIp] at h; simp [h]), devIps_devUpdate]
  simp

theorem ip_not_mem_of_hasIp_false (ip : String) (ds : List Device)
    (h : hasIp ip ds = false) :
    ip ∉ ds.map (fun d => d.ip) := by
  induction ds with
  | nil => simp
  | cons d ds ih =>
      simp only [hasIp, List.any_cons, Bool.or_eq_false_iff] at h
      simp only [List.map_cons, List.mem_cons, not_or]
      constructor
      · intro heq
        have := h.1
        simp [heq.symm] at this
      · exact ih (by simpa [hasIp] using h.2)

/-! ## Store-level lemmas: presence, commutation, absorption -/

theorem applyOp_hasIp_mono (ts k : String) (s : Store) (op : StoreOp)
    (h : hasIp k s.devices = true) :
    hasIp k (applyOp ts s op).devices = true := by
  cases op with
  | dev ip m v o => exact hasIp_flushDevice_mono ts ip m v o k s.devices h
  | openPort ip p sv => exact h
  | scriptV ip p sv e => exact h

theorem applyOp_hasVKey_mono (ts ip : String) (p : Int) (sv : String) (s : Store)
    (op : StoreOp) (h : hasVKey ip p sv s.vulns = true) :
    hasVKey ip p sv (applyOp ts s op).vulns = true := by
  cases op with
  | dev ip' m v o => exact h
  | openPort ip' p' sv' => exact hasVKey_storeOpenPort_mono ts ip' p' sv' ip p sv s.vulns h
  | scriptV ip' p' sv' e' => exact hasVKey_storeScriptVuln_mono ts ip' p' sv' e' ip p sv s.vulns h

theorem applyOps_hasIp_mono (ts k : String) (w : List StoreOp) :
    ∀ s : Store, hasIp k s.devices = true → hasIp k (applyOps ts w s).devices = true := by
  induction w with
  | nil => intro s h; exact h
  | cons op w ih => intro s h; exact ih _ (applyOp_hasIp_mono ts k s op h)

theorem applyOps_hasVKey_mono (ts ip : String) (p : Int) (sv : String) (w : List StoreOp) :
    ∀ s : Store, hasVKey ip p sv s.vulns = true →
      hasVKey ip p sv (applyOps ts w s).vulns = true := by
  induction w with
  | nil => intro s h; exact h
  | cons op w ih => intro s h; exact ih _ (applyOp_hasVKey_mono ts ip p sv s op h)

theorem applyOp_dev_comm (ts ip : String) (m v o : Option String) (s : Store)
    (op : StoreOp) (hop : isDevFor ip op = false) (h : hasIp ip s.devices = true) :
    applyOp ts (applyOp ts s (.dev ip m v o)) op =
      applyOp ts (applyOp ts s op) (.dev ip m v o) := by
  cases op with
  | dev ip2 m2 v2 o2 =>
      have hne : ip ≠ ip2 := by
        intro hh
        simp [isDevFor, hh] at hop
      show ({ s with devices := flushDevice ts ip2 m2 v2 o2 (flushDevice ts ip m v o s.devices) } : Store) =
        { s with devices := flushDevice ts ip m v o (flushDevice ts ip2 m2 v2 o2 s.devices) }
      rw [flushDevice_comm ts ts ip ip2 m v o m2 v2 o2 s.devices hne h]
  | openPort ip' p' sv' => rfl
  | scriptV ip' p' sv' e' => rfl

theorem applyOp_script_comm (ts ip : String) (p : Int) (sv e : String) (s : Store)
    (op : StoreOp) (hop : isScriptFor ip p sv op = false)
    (h : hasVKey ip p sv s.vulns = true) :
    applyOp ts (applyOp ts s (.scriptV ip p sv e)) op =
      applyOp ts (applyOp ts s op) (.scriptV ip p sv e) := by
  cases op with
  | dev ip' m' v' o' => rfl
  | openPort ip' p' sv' =>
      show ({ s with vulns := storeOpenPort ts ip' p' sv' (storeScriptVuln ts ip p sv e s.vulns) } : Store) =
        { s with vulns := storeScriptVuln ts ip p sv e (storeOpenPort ts ip' p' sv' s.vulns) }
      rw [storeOpenPort_storeScriptVuln_comm ts ts ip p sv e ip' p' sv' s.vulns h]
  | scriptV ip' p' sv' e' =>
      have hne : ¬(ip' = ip ∧ p' = p ∧ sv' = sv) := by
        intro ⟨h1, h2, h3⟩
        simp [isScriptFor, h1, h2, h3] at hop
      show ({ s with vulns := storeScriptVuln ts ip' p' sv' e' (storeScriptVuln ts ip p sv e s.vulns) } : Store) =
        { s with vulns := storeScriptVuln ts ip p sv e (storeScriptVuln ts ip' p' sv' e' s.vulns) }
      rw [storeScriptVuln_comm ts ts ip p sv e ip' p' sv' e' s.vulns hne h]

theorem applyOps_push_dev (ts ip : String) (m v o : Option String) (w : List StoreOp)
    (hall : ∀ op ∈ w, isDevFor ip op = false) :
    ∀ s : Store, hasIp ip s.devices = true →
      applyOps ts w (applyOp ts s (.dev ip m v o)) =
        applyOp ts (applyOps ts w s) (.dev ip m v o) := by
  induction w with
  | nil => intro s _; rfl
  | cons op w ih =>
      intro s h
      show applyOps ts w (applyOp ts (applyOp ts s (.dev ip m v o)) op) = _
      rw [applyOp_dev_comm ts ip m v o s op (hall op (List.mem_cons_self op w)) h]
      exact ih (fun o ho => hall o (List.mem_cons_of_mem op ho)) (applyOp ts s op)
        (applyOp_hasIp_mono ts ip s op h)

theorem applyOps_push_script (ts ip : String) (p : Int) (sv e : String)
    (w : List StoreOp) (hall : ∀ op ∈ w, isScriptFor ip p sv op = false) :
    ∀ s : Store, hasVKey ip p sv s.vulns = true →
      applyOps ts w (applyOp ts s (.scriptV ip p sv e)) =
        applyOp ts (applyOps ts w s) (.scriptV ip p sv e) := by
  induction w with
  | nil => intro s _; rfl
  | cons op w ih =>
      intro s h
      show applyOps ts w (applyOp ts (applyOp ts s (.scriptV ip p sv e)) op) = _
      rw [applyOp_script_comm ts ip p sv e s op (hall op (List.mem_cons_self op w)) h]
      exact ih (fun o ho => hall o (List.mem_cons_of_mem op ho)) (applyOp ts s op)
        (applyOp_hasVKey_mono ts ip p sv s op h)

theorem applyOp_dev_absorb (ts ip : String) (m1 v1 o1 m2 v2 o2 : Option String)
    (s : Store) :
    applyOp ts (applyOp ts s (.dev ip m1 v1 o1)) (.dev ip m2 v2 o2) =
      applyOp ts s (.dev ip m2 v2 o2) := by
  show ({ s with devices := flushDevice ts ip m2 v2 o2 (flushDevice ts ip m1 v1 o1 s.devices) } : Store) = _
  rw [flushDevice_absorb]
  rfl

theorem applyOp_script_absorb (ts ip : String) (p : Int) (sv e1 e2 : String)
    (s : Store) :
    applyOp ts (applyOp ts s (.scriptV ip p sv e1)) (.scriptV ip p sv e2) =
      applyOp ts s (.scriptV ip p sv e2) := by
  show ({ s with vulns := storeScriptVuln ts ip p sv e2 (storeScriptVuln ts ip p sv e1 s.vulns) } : Store) = _
  rw [storeScriptVuln_absorb]
  rfl

theorem hasIp_of_flushDevice_eq (ts ip : String) (m v o : Option String)
    (ds : List Device) (h : flushDevice ts ip m v o ds = ds) :
    hasIp ip ds = true := by
  cases hx : hasIp ip ds with
  | true => rfl
  | false =>
      have hmap := devIps_flushDevice_of_not ts ip m v o ds hx
      rw [h] at hmap
      have hlen := congrArg List.length hmap
      simp at hlen

theorem hasVKey_of_storeScriptVuln_eq (ts ip : String) (p : Int) (sv e : String)
    (vs : List Vuln) (h : storeScriptVuln ts ip p sv e vs = vs) :
    hasVKey ip p sv vs = true := by
  cases hx : hasVKey ip p sv vs with
  | true => rfl
  | false =>
      have hmap := vulnKeys_storeScriptVuln_of_not ts ip p sv e vs hx
      rw [h] at hmap
      have hlen := congrArg List.length hmap
      simp at hlen

theorem dev_stationary_step (ts ip : String) (m v o : Option String) (s : Store)
    (op : StoreOp) (hop : isDevFor ip op = false)
    (hq : applyOp ts s (.dev ip m v o) = s) :
    applyOp ts (applyOp ts s op) (.dev ip m v o) = applyOp ts s op := by
  have h : hasIp ip s.devices = true := by
    apply hasIp_of_flushDevice_eq ts ip m v o
    exact congrArg Store.devices hq
  rw [← applyOp_dev_comm ts ip m v o s op hop h, hq]

theorem script_stationary_step (ts ip : String) (p : Int) (sv e : String) (s : Store)
    (op : StoreOp) (hop : isScriptFor ip p sv op = false)
    (hq : applyOp ts s (.scriptV ip p sv e) = s) :
    applyOp ts (applyOp ts s op) (.scriptV ip p sv e) = applyOp ts s op := by
  have h : hasVKey ip p sv s.vulns = true := by
    apply hasVKey_of_storeScriptVuln_eq ts ip p sv e
    exact congrArg Store.vulns hq
  rw [← applyOp_script_comm ts ip p sv e s op hop h, hq]

theorem dev_stationary_run (ts ip : String) (m v o : Option String) (w : List StoreOp)
    (hall : ∀ op ∈ w, isDevFor ip op = false) :
    ∀ s : Store, applyOp ts s (.dev ip m v o) = s →
      applyOp ts (applyOps ts w s) (.dev ip m v o) = applyOps ts w s := by
  induction w with
  | nil => intro s hq; exact hq
  | cons op w ih =>
      intro s hq
      exact ih (fun o ho => hall o (List.mem_cons_of_mem op ho)) (applyOp ts s op)
        (dev_stationary_step ts ip m v o s op (hall op (List.mem_cons_self op w)) hq)

theorem script_stationary_run (ts ip : String) (p : Int) (sv e : String)
    (w : List StoreOp) (hall : ∀ op ∈ w, isScriptFor ip p sv op = false) :
    ∀ s : Store, applyOp ts s (.scriptV ip p sv e) = s →
      applyOp ts (applyOps ts w s) (.scriptV ip p sv e) = applyOps ts w s := by
  induction w with
  | nil => intro s hq; exact hq
  | cons op w ih =>
      intro s hq
      exact ih (fun o ho => hall o (List.mem_cons_of_mem op ho)) (applyOp ts s op)
        (script_stationary_step ts ip p sv e s op (hall op (List.mem_cons_self op w)) hq)

theorem any_first_split {α : Type} (f : α → Bool) :
    ∀ l : List α, l.any f = true →
      ∃ la x lb, l = la ++ x :: lb ∧ f x = true ∧ la.any f = false := by
  intro l
  induction l with
  | nil => intro h; simp at h
  | cons a l ih =>
      intro h
      by_cases ha : f a = true
      · exact ⟨[], a, l, rfl, ha, rfl⟩
      · have h' : l.any f = true := by simpa [List.any_cons, ha] using h
        obtain ⟨la, x, lb, heq, hx, hla⟩ := ih h'
        refine ⟨a :: la, x, lb, by rw [heq]; rfl, hx, ?_⟩
        simp [List.any_cons, hla]
        simpa using ha

theorem applyOps_cons (ts : String) (op : StoreOp) (w : List StoreOp) (s : Store) :
    applyOps ts (op :: w) s = applyOps ts w (applyOp ts s op) := rfl

theorem applyOps_append_cons (ts : String) (wa : List StoreOp) (op : StoreOp)
    (wb : List StoreOp) (s : Store) :
    applyOps ts (wa ++ op :: wb) s =
      applyOps ts wb (applyOp ts (applyOps ts wa s) op) := by
  rw [applyOps_append, applyOps_cons]

theorem all_false_of_any_false {α : Type} (f : α → Bool) (l : List α)
    (h : l.any f = false) :
    ∀ x ∈ l, f x = false := by
  intro x hx
  cases hb : f x with
  | false => rfl
  | true =>
      rw [List.any_eq_false] at h
      exact absurd hb (h x hx)

/-- Replaying a suffix of an already applied operation list leaves the store
unchanged: every open-port op finds its key present, every device flush and
script write repeats or is overwritten by the last write for its key. -/
theorem applyOps_replay (ts : String) :
    ∀ (w w1 : List StoreOp) (s : Store),
      applyOps ts w (applyOps ts (w1 ++ w) s) = applyOps ts (w1 ++ w) s := by
  intro w
  induction w with
  | nil => intro w1 s; rfl
  | cons op w' ih =>
      intro w1 s
      have hU : applyOps ts (w1 ++ op :: w') s =
          applyOps ts w' (applyOp ts (applyOps ts w1 s) op) := by
        rw [applyOps_append, applyOps_cons]
      have hIH : applyOps ts w' (applyOps ts (w1 ++ op :: w') s) =
          applyOps ts (w1 ++ op :: w') s := by
        have h2 := ih (w1 ++ [op]) s
        rw [List.append_assoc, List.singleton_append] at h2
        exact h2
      show applyOps ts w' (applyOp ts (applyOps ts (w1 ++ op :: w') s) op) =
        applyOps ts (w1 ++ op :: w') s
      cases op with
      | openPort ip p sv =>
          have hpres : hasVKey ip p sv
              (applyOps ts (w1 ++ StoreOp.openPort ip p sv :: w') s).vulns = true := by
            rw [hU]
            exact applyOps_hasVKey_mono ts ip p sv w' _
              (hasVKey_storeOpenPort_self ts ip p sv _)
          have hid : applyOp ts (applyOps ts (w1 ++ StoreOp.openPort ip p sv :: w') s)
              (.openPort ip p sv) =
              applyOps ts (w1 ++ StoreOp.openPort ip p sv :: w') s := by
            show ({ (applyOps ts (w1 ++ StoreOp.openPort ip p sv :: w') s) with
              vulns := storeOpenPort ts ip p sv
                (applyOps ts (w1 ++ StoreOp.openPort ip p sv :: w') s).vulns } : Store) = _
            rw [storeOpenPort_of_hasVKey ts ip p sv _ hpres]
          rw [hid, hIH]
      | dev ip m v o =>
          have hpres : hasIp ip
              (applyOps ts (w1 ++ StoreOp.dev ip m v o :: w') s).devices = true := by
            rw [hU]
            exact applyOps_hasIp_mono ts ip w' _ (hasIp_flushDevice_self ts ip m v o _)
          by_cases hw : w'.any (isDevFor ip) = true
          · obtain ⟨wa, op0, wb, rfl, hop0, hwa⟩ := any_first_split (isDevFor ip) w' hw
            cases op0 with
            | openPort ip0 p0 sv0 => simp [isDevFor] at hop0
            | scriptV ip0 p0 sv0 e0 => simp [isDevFor] at hop0
            | dev ip0 m0 v0 o0 =>
                have hip0 : ip0 = ip := by simpa [isDevFor] using hop0
                subst hip0
                have hallwa := all_false_of_any_false (isDevFor ip0) wa hwa
                calc applyOps ts (wa ++ StoreOp.dev ip0 m0 v0 o0 :: wb)
                      (applyOp ts (applyOps ts (w1 ++ StoreOp.dev ip0 m v o :: (wa ++ StoreOp.dev ip0 m0 v0 o0 :: wb)) s) (.dev ip0 m v o))
                    = applyOps ts wb (applyOp ts (applyOps ts wa
                        (applyOp ts (applyOps ts (w1 ++ StoreOp.dev ip0 m v o :: (wa ++ StoreOp.dev ip0 m0 v0 o0 :: wb)) s) (.dev ip0 m v o)))
                        (.dev ip0 m0 v0 o0)) := by
                      rw [applyOps_append, applyOps_cons]
                  _ = applyOps ts wb (applyOp ts (applyOp ts (applyOps ts wa
                        (applyOps ts (w1 ++ StoreOp.dev ip0 m v o :: (wa ++ StoreOp.dev ip0 m0 v0 o0 :: wb)) s)) (.dev ip0 m v o))
                        (.dev ip0 m0 v0 o0)) := by
                      rw [applyOps_push_dev ts ip0 m v o wa hallwa _ hpres]
                  _ = applyOps ts wb (applyOp ts (applyOps ts wa
                        (applyOps ts (w1 ++ StoreOp.dev ip0 m v o :: (wa ++ StoreOp.dev ip0 m0 v0 o0 :: wb)) s)) (.dev ip0 m0 v0 o0)) := by
                      rw [applyOp_dev_absorb]
                  _ = applyOps ts (wa ++ StoreOp.dev ip0 m0 v0 o0 :: wb)
                        (applyOps ts (w1 ++ StoreOp.dev ip0 m v o :: (wa ++ StoreOp.dev ip0 m0 v0 o0 :: wb)) s) := by
                      conv_rhs => rw [applyOps_append_cons]
                  _ = applyOps ts (w1 ++ StoreOp.dev ip0 m v o :: (wa ++ StoreOp.dev ip0 m0 v0 o0 :: wb)) s := hIH
          · have hall := all_false_of_any_false (isDevFor ip) w' (by simpa using hw)
            have hQ : applyOp ts (applyOps ts (w1 ++ StoreOp.dev ip m v o :: w') s)
                (.dev ip m v o) = applyOps ts (w1 ++ StoreOp.dev ip m v o :: w') s := by
              rw [hU]
              exact dev_stationary_run ts ip m v o w' hall _
                (applyOp_dev_absorb ts ip m v o m v o _)
            rw [hQ, hIH]
      | scriptV ip p sv e =>
          have hpres : hasVKey ip p sv
              (applyOps ts (w1 ++ StoreOp.scriptV ip p sv e :: w') s).vulns = true := by
            rw [hU]
            exact applyOps_hasVKey_mono ts ip p sv w' _
              (hasVKey_storeScriptVuln_self ts ip p sv e _)
          by_cases hw : w'.any (isScriptFor ip p sv) = true
          · obtain ⟨wa, op0, wb, rfl, hop0, hwa⟩ := any_first_split (isScriptFor ip p sv) w' hw
            cases op0 with
            | openPort ip0 p0 sv0 => simp [isScriptFor] at hop0
            | dev ip0 m0 v0 o0 => simp [isScriptFor] at hop0
            | scriptV ip0 p0 sv0 e0 =>
                have hkey : (ip0 = ip ∧ p0 = p) ∧ sv0 = sv := by
                  simpa [isScriptFor] using hop0
                obtain ⟨⟨rfl, rfl⟩, rfl⟩ := hkey
                have hallwa := all_false_of_any_false (isScriptFor ip0 p0 sv0) wa hwa
                calc applyOps ts (wa ++ StoreOp.scriptV ip0 p0 sv0 e0 :: wb)
                      (applyOp ts (applyOps ts (w1 ++ StoreOp.scriptV ip0 p0 sv0 e :: (wa ++ StoreOp.scriptV ip0 p0 sv0 e0 :: wb)) s) (.scriptV ip0 p0 sv0 e))
                    = applyOps ts wb (applyOp ts (applyOps ts wa
                        (applyOp ts (applyOps ts (w1 ++ StoreOp.scriptV ip0 p0 sv0 e :: (wa ++ StoreOp.scriptV ip0 p0 sv0 e0 :: wb)) s) (.scriptV ip0 p0 sv0 e)))
                        (.scriptV ip0 p0 sv0 e0)) := by
                      rw [applyOps_append, applyOps_cons]
                  _ = applyOps ts wb (applyOp ts (applyOp ts (applyOps ts wa
                        (applyOps ts (w1 ++ StoreOp.scriptV ip0 p0 sv0 e :: (wa ++ StoreOp.scriptV ip0 p0 sv0 e0 :: wb)) s)) (.scriptV ip0 p0 sv0 e))
                        (.scriptV ip0 p0 sv0 e0)) := by
                      rw [applyOps_push_script ts ip0 p0 sv0 e wa hallwa _ hpres]
                  _ = applyOps ts wb (applyOp ts (applyOps ts wa
                        (applyOps ts (w1 ++ StoreOp.scriptV ip0 p0 sv0 e :: (wa ++ StoreOp.scriptV ip0 p0 sv0 e0 :: wb)) s)) (.scriptV ip0 p0 sv0 e0)) := by
                      rw [applyOp_script_absorb]
                  _ = applyOps ts (wa ++ StoreOp.scriptV ip0 p0 sv0 e0 :: wb)
                        (applyOps ts (w1 ++ StoreOp.scriptV ip0 p0 sv0 e :: (wa ++ StoreOp.scriptV ip0 p0 sv0 e0 :: wb)) s) := by
                      conv_rhs => rw [applyOps_append_cons]
                  _ = applyOps ts (w1 ++ StoreOp.scriptV ip0 p0 sv0 e :: (wa ++ StoreOp.scriptV ip0 p0 sv0 e0 :: wb)) s := hIH
          · have hall := all_false_of_any_false (isScriptFor ip p sv) w' (by simpa using hw)
            have hQ : applyOp ts (applyOps ts (w1 ++ StoreOp.scriptV ip p sv e :: w') s)
                (.scriptV ip p sv e) = applyOps ts (w1 ++ StoreOp.scriptV ip p sv e :: w') s := by
              rw [hU]
              exact script_stationary_run ts ip p sv e w' hall _
                (applyOp_script_absorb ts ip p sv e e _)
            rw [hQ, hIH]

/-! ## Key-uniqueness and key-set preservation through the operations -/

theorem devIps_nodup_applyOp (ts : String) (s : Store) (op : StoreOp)
    (h : (s.devices.map (fun d => d.ip)).Nodup) :
    ((applyOp ts s op).devices.map (fun d => d.ip)).Nodup := by
  cases op with
  | dev ip m v o =>
      cases hx : hasIp ip s.devices with
      | true =>
          show ((flushDevice ts ip m v o s.devices).map (fun d => d.ip)).Nodup
          rw [devIps_flushDevice_of_hasIp ts ip m v o s.devices hx]
          exact h
      | false =>
          show ((flushDevice ts ip m v o s.devices).map (fun d => d.ip)).Nodup
          rw [devIps_flushDevice_of_not ts ip m v o s.devices hx]
          rw [List.nodup_append]
          refine ⟨h, List.nodup_singleton ip, ?_⟩
          intro a ha hb
          rw [List.mem_singleton] at hb
          rw [hb] at ha
          exact ip_not_mem_of_hasIp_false ip s.devices hx ha
  | openPort ip p sv => exact h
  | scriptV ip p sv e => exact h

theorem vulnKeys_nodup_applyOp (ts : String) (s : Store) (op : StoreOp)
    (h : (s.vulns.map (fun v => (v.deviceIp, v.port, v.service))).Nodup) :
    ((applyOp ts s op).vulns.map (fun v => (v.deviceIp, v.port, v.service))).Nodup := by
  cases op with
  | dev ip m v o => exact h
  | openPort ip p sv =>
      show ((storeOpenPort ts ip p sv s.vulns).map _).Nodup
      unfold storeOpenPort
      split
      · exact h
      · rename_i hx
        rw [List.map_append, List.nodup_append]
        refine ⟨h, by simp, ?_⟩
        intro a ha hb
        simp only [List.map_cons, List.map_nil, List.mem_singleton] at hb
        subst hb
        exact key_not_mem_of_hasVKey_false ip p sv s.vulns (by simpa using hx) ha
  | scriptV ip p sv e =>
      show ((storeScriptVuln ts ip p sv e s.vulns).map _).Nodup
      cases hx : hasVKey ip p sv s.vulns with
      | true =>
          rw [vulnKeys_storeScriptVuln_of_has ts ip p sv e s.vulns hx]
          exact h
      | false =>
          rw [vulnKeys_storeScriptVuln_of_not ts ip p sv e s.vulns hx]
          rw [List.nodup_append]
          refine ⟨h, List.nodup_singleton _, ?_⟩
          intro a ha hb
          rw [List.mem_singleton] at hb
          subst hb
          exact key_not_mem_of_hasVKey_false ip p sv s.vulns hx ha

theorem devIps_nodup_applyOps (ts : String) (w : List StoreOp) :
    ∀ s : Store, (s.devices.map (fun d => d.ip)).Nodup →
      ((applyOps ts w s).devices.map (fun d => d.ip)).Nodup := by
  induction w with
  | nil => intro s h; exact h
  | cons op w ih => intro s h; exact ih _ (devIps_nodup_applyOp ts s op h)

theorem vulnKeys_nodup_applyOps (ts : String) (w : List StoreOp) :
    ∀ s : Store, (s.vulns.map (fun v => (v.deviceIp, v.port, v.service))).Nodup →
      ((applyOps ts w s).vulns.map (fun v => (v.deviceIp, v.port, v.service))).Nodup := by
  induction w with
  | nil => intro s h; exact h
  | cons op w ih => intro s h; exact ih _ (vulnKeys_nodup_applyOp ts s op h)

theorem dev_present_of_mem (ts ip : String) (m v o : Option String)
    (w : List StoreOp) (s : Store) (hmem : StoreOp.dev ip m v o ∈ w) :
    hasIp ip (applyOps ts w s).devices = true := by
  obtain ⟨la, lb, rfl⟩ := List.append_of_mem hmem
  rw [applyOps_append_cons]
  exact applyOps_hasIp_mono ts ip lb _ (hasIp_flushDevice_self ts ip m v o _)

theorem openPort_present_of_mem (ts ip : String) (p : Int) (sv : String)
    (w : List StoreOp) (s : Store) (hmem : StoreOp.openPort ip p sv ∈ w) :
    hasVKey ip p sv (applyOps ts w s).vulns = true := by
  obtain ⟨la, lb, rfl⟩ := List.append_of_mem hmem
  rw [applyOps_append_cons]
  exact applyOps_hasVKey_mono ts ip p sv lb _ (hasVKey_storeOpenPort_self ts ip p sv _)

theorem scriptV_present_of_mem (ts ip : String) (p : Int) (sv e : String)
    (w : List StoreOp) (s : Store) (hmem : StoreOp.scriptV ip p sv e ∈ w) :
    hasVKey ip p sv (applyOps ts w s).vulns = true := by
  obtain ⟨la, lb, rfl⟩ := List.append_of_mem hmem
  rw [applyOps_append_cons]
  exact applyOps_hasVKey_mono ts ip p sv lb _ (hasVKey_storeScriptVuln_self ts ip p sv e _)

theorem applyOps_maps_preserved (ts2 : String) :
    ∀ (w : List StoreOp) (X : Store),
      (∀ ip m v o, StoreOp.dev ip m v o ∈ w → hasIp ip X.devices = true) →
      (∀ ip p sv, StoreOp.openPort ip p sv ∈ w → hasVKey ip p sv X.vulns = true) →
      (∀ ip p sv e, StoreOp.scriptV ip p sv e ∈ w → hasVKey ip p sv X.vulns = true) →
      (applyOps ts2 w X).devices.map (fun d => d.ip) = X.devices.map (fun d => d.ip) ∧
      (applyOps ts2 w X).vulns.map (fun v => (v.deviceIp, v.port, v.service)) =
        X.vulns.map (fun v => (v.deviceIp, v.port, v.service)) := by
  intro w
  induction w with
  | nil => intro X _ _ _; exact ⟨rfl, rfl⟩
  | cons op w ih =>
      intro X h1 h2 h3
      have hstep : (applyOp ts2 X op).devices.map (fun d => d.ip) =
            X.devices.map (fun d => d.ip) ∧
          (applyOp ts2 X op).vulns.map (fun v => (v.deviceIp, v.port, v.service)) =
            X.vulns.map (fun v => (v.deviceIp, v.port, v.service)) := by
        cases op with
        | dev ip m v o =>
            exact ⟨devIps_flushDevice_of_hasIp ts2 ip m v o X.devices
              (h1 ip m v o (List.mem_cons_self _ _)), rfl⟩
        | openPort ip p sv =>
            have hop := storeOpenPort_of_hasVKey ts2 ip p sv X.vulns
              (h2 ip p sv (List.mem_cons_self _ _))
            constructor
            · rfl
            · show (storeOpenPort ts2 ip p sv X.vulns).map
                  (fun v => (v.deviceIp, v.port, v.service)) = _
              rw [hop]
        | scriptV ip p sv e =>
            exact ⟨rfl, vulnKeys_storeScriptVuln_of_has ts2 ip p sv e X.vulns
              (h3 ip p sv e (List.mem_cons_self _ _))⟩
      have hrest := ih (applyOp ts2 X op)
        (fun ip m v o hm => applyOp_hasIp_mono ts2 ip X op (h1 ip m v o (List.mem_cons_of_mem op hm)))
        (fun ip p sv hm => applyOp_hasVKey_mono ts2 ip p sv X op (h2 ip p sv (List.mem_cons_of_mem op hm)))
        (fun ip p sv e hm => applyOp_hasVKey_mono ts2 ip p sv X op (h3 ip p sv e (List.mem_cons_of_mem op hm)))
      exact ⟨hrest.1.trans hstep.1, hrest.2.trans hstep.2⟩

/-! ## C1: idempotent persistence -/

/-- C1: re-running `parse_and_store_nmap` on the same complete output against
the store holding the first run's results reproduces the store exactly (same
timestamp input; a deterministic replay); for a re-parse at any later
timestamp the device ip column and the vulnerability natural-key column are
reproduced exactly (no duplicate row is ever created for an ip or for a
(device_ip, port, service) triple, in particular the informational open-port
insert is skipped on collision); a parse preserves at-most-one-row-per-key
of both tables; and the script-evidence write on an existing natural key
updates that row in place (evidence, severity High, timestamp) instead of
inserting a second row. -/
theorem c1_idempotent_persistence (ts : String) (ls : List String) (db : Store) :
    parseLines ts ls (parseLines ts ls db) = parseLines ts ls db ∧
    (∀ ts2 : String,
      (parseLines ts2 ls (parseLines ts ls db)).devices.map (fun d => d.ip) =
        (parseLines ts ls db).devices.map (fun d => d.ip) ∧
      (parseLines ts2 ls (parseLines ts ls db)).vulns.map
          (fun v => (v.deviceIp, v.port, v.service)) =
        (parseLines ts ls db).vulns.map (fun v => (v.deviceIp, v.port, v.service))) ∧
    ((db.devices.map (fun d => d.ip)).Nodup →
      ((parseLines ts ls db).devices.map (fun d => d.ip)).Nodup) ∧
    ((db.vulns.map (fun v => (v.deviceIp, v.port, v.service))).Nodup →
      ((parseLines ts ls db).vulns.map (fun v => (v.deviceIp, v.port, v.service))).Nodup) ∧
    (∀ (ts' ip : String) (p : Int) (sv e : String) (vs : List Vuln),
      hasVKey ip p sv vs = true →
      ∃ i v0, vs.get? i = some v0 ∧ vulnKeyIs ip p sv v0 = true ∧
        storeScriptVuln ts' ip p sv e vs =
          vs.set i { v0 with scriptOutput := e, severity := "High", timestamp := ts' }) := by
  refine ⟨?_, ?_, ?_, ?_, ?_⟩
  · rw [parse_ops ts ls db, parse_ops ts ls]
    have h := applyOps_replay ts (opsAux Cursor.init ls) [] db
    rwa [List.nil_append] at h
  · intro ts2
    rw [parse_ops ts2 ls, parse_ops ts ls db]
    exact applyOps_maps_preserved ts2 (opsAux Cursor.init ls)
      (applyOps ts (opsAux Cursor.init ls) db)
      (fun ip m v o hm => dev_present_of_mem ts ip m v o _ db hm)
      (fun ip p sv hm => openPort_present_of_mem ts ip p sv _ db hm)
      (fun ip p sv e hm => scriptV_present_of_mem ts ip p sv e _ db hm)
  · intro h
    rw [parse_ops]
    exact devIps_nodup_applyOps ts _ db h
  · intro h
    rw [parse_ops]
    exact vulnKeys_nodup_applyOps ts _ db h
  · intro ts' ip p sv e vs h
    exact storeScriptVuln_set_of_hasVKey ts' ip p sv e vs h

/-- Closed instance of `c1_idempotent_persistence` on a concrete scan. -/
theorem c1_idempotent_persistence_witness :
    parseLines "T1" ["Nmap scan report for 10.0.0.5", "PORT      STATE SERVICE", "80/tcp    open  http"]
      (parseLines "T1" ["Nmap scan report for 10.0.0.5", "PORT      STATE SERVICE", "80/tcp    open  http"] ⟨[], []⟩) =
      parseLines "T1" ["Nmap scan report for 10.0.0.5", "PORT      STATE SERVICE", "80/tcp    open  http"] ⟨[], []⟩ ∧
    (parseLines "T2" ["Nmap scan report for 10.0.0.5", "PORT      STATE SERVICE", "80/tcp    open  http"]
      (parseLines "T1" ["Nmap scan report for 10.0.0.5", "PORT      STATE SERVICE", "80/tcp    open  http"] ⟨[], []⟩)).vulns.map
        (fun v => (v.deviceIp, v.port, v.service)) =
      (parseLines "T1" ["Nmap scan report for 10.0.0.5", "PORT      STATE SERVICE", "80/tcp    open  http"] ⟨[], []⟩).vulns.map
        (fun v => (v.deviceIp, v.port, v.service)) ∧
    ((parseLines "T1" ["Nmap scan report for 10.0.0.5", "PORT      STATE SERVICE", "80/tcp    open  http"] ⟨[], []⟩).devices.map
      (fun d => d.ip)).Nodup ∧
    (∃ i v0, [(⟨"10.0.0.5", 80, "http", "Open port detected", "Informational", "T0"⟩ : Vuln)].get? i = some v0 ∧
      vulnKeyIs "10.0.0.5" 80 "http" v0 = true ∧
      storeScriptVuln "T3" "10.0.0.5" 80 "http" "evidence"
          [⟨"10.0.0.5", 80, "http", "Open port detected", "Informational", "T0"⟩] =
        [⟨"10.0.0.5", 80, "http", "Open port detected", "Informational", "T0"⟩].set i
          { v0 with scriptOutput := "evidence", severity := "High", timestamp := "T3" }) := by
  obtain ⟨h1, h2, h3, h4, h5⟩ := c1_idempotent_persistence "T1"
    ["Nmap scan report for 10.0.0.5", "PORT      STATE SERVICE", "80/tcp    open  http"] ⟨[], []⟩
  exact ⟨h1, (h2 "T2").2, h3 (by decide),
    h5 "T3" "10.0.0.5" 80 "http" "evidence"
      [⟨"10.0.0.5", 80, "http", "Open port detected", "Informational", "T0"⟩] (by decide)⟩

end CyberRange
